import Mathlib

/-!
Verification development for the ATS Field Mapping Engine and Resume Normalizer
(`ats_field_mapper.py`, `resume_normalizer.py`).

The Python modules are shallowly embedded: every embedded definition is a direct
transcription of the corresponding Python function, with
  * Python `str`        modeled as Lean `String` (ASCII semantics; all table keys,
    blacklist patterns and inputs of interest are ASCII),
  * Python floats       modeled as rationals (`ℚ`) — all scores in the source are
    ratios of small integers and fixed decimal constants,
  * Python `None`       modeled as `Option.none`,
  * Python dicts        modeled as insertion-ordered association lists
    (matching CPython 3.7+ dict iteration-order semantics).
-/

set_option maxRecDepth 10000

/-! ## Basic Python string semantics (ASCII) -/

/-- Python whitespace characters (`\s`, `str.strip`), ASCII subset. -/
def pyIsSpace (c : Char) : Bool :=
  c = ' ' || c = '\t' || c = '\n' || c = '\r' || c = '\x0b' || c = '\x0c'

/-- Python word character (`\w`), ASCII subset: alphanumeric or underscore. -/
def pyIsWord (c : Char) : Bool :=
  c.isAlphanum || c = '_'

/-- Python `str.strip()` on a character list (ASCII whitespace). -/
def pyStripChars (cs : List Char) : List Char :=
  ((cs.dropWhile pyIsSpace).reverse.dropWhile pyIsSpace).reverse

/-- Python `str.strip()`. -/
def pyStrip (s : String) : String :=
  ⟨pyStripChars s.data⟩

/-- Python `str.lower()` (ASCII). -/
def pyLower (s : String) : String :=
  ⟨s.data.map Char.toLower⟩

/-- Python `str.split()` with no argument: split on whitespace runs, dropping
empty pieces. -/
def pySplitWs (s : String) : List String :=
  ((s.data.splitOnP (pyIsSpace ·)).filter (· ≠ [])).map fun cs => ⟨cs⟩

/-- Python `str.isdigit()` (ASCII digits): nonempty and all digits. -/
def pyIsDigitStr (s : String) : Bool :=
  s.data ≠ [] && s.data.all Char.isDigit

/-- Numeric value of an ASCII digit string. -/
def digitsToNat (cs : List Char) : Nat :=
  cs.foldl (fun acc c => acc * 10 + (c.toNat - '0'.toNat)) 0

/-- Python `int(s)` for strings, restricted to the forms relevant here:
surrounding whitespace stripped, an optional single `+`/`-` sign, then a
nonempty run of ASCII digits (digit-group underscores are not modeled).
Returns `none` when parsing fails (Python raises `ValueError`). -/
def pyIntOfString (s : String) : Option Int :=
  let cs := pyStripChars s.data
  let (sign, digits) :=
    match cs with
    | '+' :: rest => ((1 : Int), rest)
    | '-' :: rest => ((-1 : Int), rest)
    | rest => ((1 : Int), rest)
  if digits ≠ [] ∧ digits.all Char.isDigit then
    some (sign * (digitsToNat digits : Int))
  else
    none

/-- Substring containment, Python `x in y` on strings. -/
def listContainsSub (needle hay : List Char) : Bool :=
  match hay with
  | [] => needle = []
  | _ :: rest => needle.isPrefixOf hay || listContainsSub needle rest

/-- Python `needle in hay` for strings. -/
def pyInStr (needle hay : String) : Bool :=
  listContainsSub needle.data hay.data

/-- Python `s.split(sep)` for a nonempty separator, over character lists
(core `String.splitOn` is not kernel-reducible). Fuel `length + 1` always
suffices: every step consumes at least one character. -/
def splitOnSubAux (sep : List Char) : Nat → List Char → List Char → List (List Char)
  | 0, _, acc => [acc.reverse]
  | _ + 1, [], acc => [acc.reverse]
  | fuel + 1, c :: rest, acc =>
      if sep.isPrefixOf (c :: rest) then
        acc.reverse :: splitOnSubAux sep fuel ((c :: rest).drop sep.length) []
      else splitOnSubAux sep fuel rest (c :: acc)

/-- Python `s.split(sep)` (nonempty `sep`): non-overlapping, leftmost-first. -/
def pySplitOnSub (s sep : String) : List String :=
  (splitOnSubAux sep.data (s.data.length + 1) s.data []).map fun cs => ⟨cs⟩

/-! ## Enumerations (`SelectionStrategy`, `CanonicalField`), from
`src/ats_field_mapper.py` lines 175-240 -/

/-- Selection strategies for choosing entries from list fields
(`SelectionStrategy`, src/ats_field_mapper.py:175). -/
inductive SelectionStrategy where
  | most_recent
  | longest
  | highest_degree
deriving DecidableEq, Repr

/-- String tag of a `SelectionStrategy` (the Python enum `.value`). -/
def SelectionStrategy.value : SelectionStrategy → String
  | .most_recent => "most_recent"
  | .longest => "longest"
  | .highest_degree => "highest_degree"

/-- Canonical field namespace (`CanonicalField`, src/ats_field_mapper.py:190). -/
inductive CanonicalField where
  | first_name | last_name | full_name | email | phone | phone_number
  | address | city | state | zip_code | country
  | linkedin_url | github_url | portfolio_url | website
  | education_degree | education_institution | education_start_date
  | education_end_date | education_major | education_gpa
  | experience_title | experience_company | experience_start_date
  | experience_end_date | experience_description | experience_current
  | skills
  | project_name | project_description
  | resume_file | cover_letter | availability | salary_expectation
  | work_authorization
deriving DecidableEq, Repr, BEq

/-- String tag of a `CanonicalField` (the Python enum `.value`). -/
def CanonicalField.value : CanonicalField → String
  | .first_name => "first_name"
  | .last_name => "last_name"
  | .full_name => "full_name"
  | .email => "email"
  | .phone => "phone"
  | .phone_number => "phone_number"
  | .address => "address"
  | .city => "city"
  | .state => "state"
  | .zip_code => "zip_code"
  | .country => "country"
  | .linkedin_url => "linkedin_url"
  | .github_url => "github_url"
  | .portfolio_url => "portfolio_url"
  | .website => "website"
  | .education_degree => "education.degree"
  | .education_institution => "education.institution"
  | .education_start_date => "education.start_date"
  | .education_end_date => "education.end_date"
  | .education_major => "education.major"
  | .education_gpa => "education.gpa"
  | .experience_title => "experience.title"
  | .experience_company => "experience.company"
  | .experience_start_date => "experience.start_date"
  | .experience_end_date => "experience.end_date"
  | .experience_description => "experience.description"
  | .experience_current => "experience.current"
  | .skills => "skills"
  | .project_name => "project.name"
  | .project_description => "project.description"
  | .resume_file => "resume_file"
  | .cover_letter => "cover_letter"
  | .availability => "availability"
  | .salary_expectation => "salary_expectation"
  | .work_authorization => "work_authorization"

/-- Canonical schema version constant (src/ats_field_mapper.py:172). -/
def CANONICAL_SCHEMA_VERSION : String := "1.0.0"

/-- Field sensitivity weights (`FIELD_SENSITIVITY_WEIGHTS`,
src/ats_field_mapper.py:262-305), as an association list in source order.
Rational constants are written with `mkRat` throughout this development
(`mkRat 1 2 = 0.5`, `mkRat 7 10 = 0.7`, `mkRat 17 20 = 0.85`) because this
toolchain's `Rat` arithmetic operators are `@[irreducible]` and would block
kernel evaluation of concrete instances. -/
def FIELD_SENSITIVITY_WEIGHTS : List (CanonicalField × ℚ) :=
  [ (.email, mkRat 1 2), (.phone, mkRat 1 2), (.phone_number, mkRat 1 2),
    (.first_name, mkRat 7 10), (.last_name, mkRat 7 10),
    (.full_name, mkRat 7 10), (.work_authorization, mkRat 7 10),
    (.education_degree, mkRat 17 20), (.education_institution, mkRat 17 20),
    (.education_start_date, mkRat 17 20), (.education_end_date, mkRat 17 20),
    (.education_gpa, mkRat 17 20), (.experience_start_date, mkRat 17 20),
    (.experience_end_date, mkRat 17 20), (.experience_current, mkRat 17 20),
    (.address, 1), (.city, 1), (.state, 1), (.zip_code, 1),
    (.country, 1), (.linkedin_url, 1), (.github_url, 1),
    (.portfolio_url, 1), (.website, 1), (.education_major, 1),
    (.experience_title, 1), (.experience_company, 1),
    (.experience_description, 1), (.skills, 1), (.project_name, 1),
    (.project_description, 1), (.resume_file, 1), (.cover_letter, 1),
    (.availability, 1), (.salary_expectation, 1) ]

/-- `FIELD_SENSITIVITY_WEIGHTS.get(canonical_field, 1.0)`
(src/ats_field_mapper.py:1365). -/
def fieldWeight (cf : CanonicalField) : ℚ :=
  (FIELD_SENSITIVITY_WEIGHTS.lookup cf).getD 1

/-- Chunk 1 of `ATS_FIELD_MAPPINGS` (split to keep elaboration cheap). -/
def atsFieldMappings1 : List (String × CanonicalField) :=
  [ ("first name", CanonicalField.first_name),
    ("firstname", CanonicalField.first_name),
    ("fname", CanonicalField.first_name),
    ("given name", CanonicalField.first_name),
    ("forename", CanonicalField.first_name),
    ("last name", CanonicalField.last_name),
    ("lastname", CanonicalField.last_name),
    ("lname", CanonicalField.last_name),
    ("surname", CanonicalField.last_name),
    ("family name", CanonicalField.last_name),
    ("full name", CanonicalField.full_name),
    ("fullname", CanonicalField.full_name),
    ("name", CanonicalField.full_name),
    ("applicant name", CanonicalField.full_name),
    ("candidate name", CanonicalField.full_name),
    ("email", CanonicalField.email),
    ("email address", CanonicalField.email),
    ("e-mail", CanonicalField.email),
    ("e-mail address", CanonicalField.email),
    ("email id", CanonicalField.email),
    ("contact email", CanonicalField.email),
    ("phone", CanonicalField.phone),
    ("phone number", CanonicalField.phone_number),
    ("telephone", CanonicalField.phone),
    ("telephone number", CanonicalField.phone_number),
    ("mobile", CanonicalField.phone),
    ("mobile number", CanonicalField.phone_number),
    ("cell phone", CanonicalField.phone),
    ("cell", CanonicalField.phone),
    ("contact number", CanonicalField.phone),
    ("phone #", CanonicalField.phone),
    ("address", CanonicalField.address),
    ("street address", CanonicalField.address),
    ("street", CanonicalField.address),
    ("address line 1", CanonicalField.address) ]

/-- Chunk 2 of `ATS_FIELD_MAPPINGS` (split to keep elaboration cheap). -/
def atsFieldMappings2 : List (String × CanonicalField) :=
  [ ("address line1", CanonicalField.address),
    ("city", CanonicalField.city),
    ("state", CanonicalField.state),
    ("state/province", CanonicalField.state),
    ("province", CanonicalField.state),
    ("zip", CanonicalField.zip_code),
    ("zip code", CanonicalField.zip_code),
    ("postal code", CanonicalField.zip_code),
    ("postcode", CanonicalField.zip_code),
    ("zip/postal code", CanonicalField.zip_code),
    ("country", CanonicalField.country),
    ("linkedin", CanonicalField.linkedin_url),
    ("linkedin profile", CanonicalField.linkedin_url),
    ("linkedin url", CanonicalField.linkedin_url),
    ("linkedin.com", CanonicalField.linkedin_url),
    ("github", CanonicalField.github_url),
    ("github profile", CanonicalField.github_url),
    ("github url", CanonicalField.github_url),
    ("github.com", CanonicalField.github_url),
    ("portfolio", CanonicalField.portfolio_url),
    ("portfolio url", CanonicalField.portfolio_url),
    ("portfolio website", CanonicalField.portfolio_url),
    ("personal website", CanonicalField.portfolio_url),
    ("website", CanonicalField.website),
    ("personal site", CanonicalField.website),
    ("homepage", CanonicalField.website),
    ("degree", CanonicalField.education_degree),
    ("education degree", CanonicalField.education_degree),
    ("highest degree", CanonicalField.education_degree),
    ("degree earned", CanonicalField.education_degree),
    ("qualification", CanonicalField.education_degree),
    ("school", CanonicalField.education_institution),
    ("university", CanonicalField.education_institution),
    ("college", CanonicalField.education_institution),
    ("institution", CanonicalField.education_institution) ]

/-- Chunk 3 of `ATS_FIELD_MAPPINGS` (split to keep elaboration cheap). -/
def atsFieldMappings3 : List (String × CanonicalField) :=
  [ ("educational institution", CanonicalField.education_institution),
    ("school name", CanonicalField.education_institution),
    ("university name", CanonicalField.education_institution),
    ("college name", CanonicalField.education_institution),
    ("education start", CanonicalField.education_start_date),
    ("education start date", CanonicalField.education_start_date),
    ("school start date", CanonicalField.education_start_date),
    ("enrollment date", CanonicalField.education_start_date),
    ("education end", CanonicalField.education_end_date),
    ("education end date", CanonicalField.education_end_date),
    ("graduation date", CanonicalField.education_end_date),
    ("graduation year", CanonicalField.education_end_date),
    ("degree date", CanonicalField.education_end_date),
    ("completion date", CanonicalField.education_end_date),
    ("major", CanonicalField.education_major),
    ("field of study", CanonicalField.education_major),
    ("area of study", CanonicalField.education_major),
    ("concentration", CanonicalField.education_major),
    ("specialization", CanonicalField.education_major),
    ("gpa", CanonicalField.education_gpa),
    ("grade point average", CanonicalField.education_gpa),
    ("cgpa", CanonicalField.education_gpa),
    ("job title", CanonicalField.experience_title),
    ("position", CanonicalField.experience_title),
    ("title", CanonicalField.experience_title),
    ("role", CanonicalField.experience_title),
    ("position title", CanonicalField.experience_title),
    ("job role", CanonicalField.experience_title),
    ("company", CanonicalField.experience_company),
    ("employer", CanonicalField.experience_company),
    ("organization", CanonicalField.experience_company),
    ("company name", CanonicalField.experience_company),
    ("employer name", CanonicalField.experience_company),
    ("organization name", CanonicalField.experience_company),
    ("employment start", CanonicalField.experience_start_date) ]

/-- Chunk 4 of `ATS_FIELD_MAPPINGS` (split to keep elaboration cheap). -/
def atsFieldMappings4 : List (String × CanonicalField) :=
  [ ("employment start date", CanonicalField.experience_start_date),
    ("start date", CanonicalField.availability),
    ("job start date", CanonicalField.experience_start_date),
    ("work start date", CanonicalField.experience_start_date),
    ("date started", CanonicalField.experience_start_date),
    ("employment end", CanonicalField.experience_end_date),
    ("employment end date", CanonicalField.experience_end_date),
    ("end date", CanonicalField.experience_end_date),
    ("job end date", CanonicalField.experience_end_date),
    ("work end date", CanonicalField.experience_end_date),
    ("date ended", CanonicalField.experience_end_date),
    ("to date", CanonicalField.experience_end_date),
    ("job description", CanonicalField.experience_description),
    ("work description", CanonicalField.experience_description),
    ("responsibilities", CanonicalField.experience_description),
    ("duties", CanonicalField.experience_description),
    ("role description", CanonicalField.experience_description),
    ("current position", CanonicalField.experience_current),
    ("current job", CanonicalField.experience_current),
    ("currently employed", CanonicalField.experience_current),
    ("still working", CanonicalField.experience_current),
    ("present", CanonicalField.experience_current),
    ("skills", CanonicalField.skills),
    ("technical skills", CanonicalField.skills),
    ("competencies", CanonicalField.skills),
    ("expertise", CanonicalField.skills),
    ("proficiencies", CanonicalField.skills),
    ("technologies", CanonicalField.skills),
    ("tools", CanonicalField.skills),
    ("programming languages", CanonicalField.skills),
    ("project name", CanonicalField.project_name),
    ("project title", CanonicalField.project_name),
    ("project description", CanonicalField.project_description),
    ("project details", CanonicalField.project_description),
    ("resume", CanonicalField.resume_file) ]

/-- Chunk 5 of `ATS_FIELD_MAPPINGS` (split to keep elaboration cheap). -/
def atsFieldMappings5 : List (String × CanonicalField) :=
  [ ("resume file", CanonicalField.resume_file),
    ("cv", CanonicalField.resume_file),
    ("cv file", CanonicalField.resume_file),
    ("upload resume", CanonicalField.resume_file),
    ("attach resume", CanonicalField.resume_file),
    ("cover letter", CanonicalField.cover_letter),
    ("cover letter file", CanonicalField.cover_letter),
    ("upload cover letter", CanonicalField.cover_letter),
    ("availability", CanonicalField.availability),
    ("available", CanonicalField.availability),
    ("when can you start", CanonicalField.availability),
    ("salary", CanonicalField.salary_expectation),
    ("salary expectation", CanonicalField.salary_expectation),
    ("expected salary", CanonicalField.salary_expectation),
    ("desired salary", CanonicalField.salary_expectation),
    ("compensation", CanonicalField.salary_expectation),
    ("work authorization", CanonicalField.work_authorization),
    ("authorized to work", CanonicalField.work_authorization),
    ("work permit", CanonicalField.work_authorization),
    ("visa status", CanonicalField.work_authorization),
    ("legal right to work", CanonicalField.work_authorization) ]

/-- ATS field name variations mapped to canonical fields
(`ATS_FIELD_MAPPINGS`, src/ats_field_mapper.py:309-513), as an
insertion-ordered association list mirroring the CPython dict:
the key `'start date'` appears twice in the Python literal (once under
Experience at line 443 and once under Other at line 499); per dict-literal
semantics it keeps its first insertion position but the last value,
`AVAILABILITY`, so it is listed once, in the Experience block, mapping to
`availability`. Split into chunk definitions purely for elaboration speed. -/
def ATS_FIELD_MAPPINGS : List (String × CanonicalField) :=
  atsFieldMappings1 ++ atsFieldMappings2 ++ atsFieldMappings3 ++ atsFieldMappings4 ++ atsFieldMappings5

/-! ## Field name normalizer (`normalize_field_name`,
src/ats_field_mapper.py:582-656) -/

/-- One logged normalization step (the dicts appended to `steps`). -/
structure NormStep where
  step : String
  description : String
  before : String
  after : String
deriving Repr, DecidableEq

/-- Alternatives of the prefix regex `^(required|optional|please enter|enter)`,
in Python's leftmost-alternation order. -/
def normPrefixAlts : List String := ["required", "optional", "please enter", "enter"]

/-- Alternatives of the suffix regex
`(required|optional|\(required\)|\(optional\))`. -/
def normSuffixAlts : List String := ["required", "optional", "(required)", "(optional)"]

/-- Drop a leading whitespace run, one optional `:`, then another whitespace
run — the `\s*:?\s*` part of both decoration regexes. The `\s*`/`:?` pieces
are each deterministic here because what follows them in the patterns never
starts with whitespace or a colon. -/
def dropWsColonWs (cs : List Char) : List Char :=
  let cs1 := cs.dropWhile pyIsSpace
  match cs1 with
  | ':' :: r => r.dropWhile pyIsSpace
  | _ => cs1

/-- `re.sub(r'^(required|optional|please enter|enter)\s*:?\s*', '', s)`
(src/ats_field_mapper.py:612): with the `^` anchor the substitution removes at
most one leftmost match, trying alternatives in order. -/
def stripNormPrefix (s : String) : String :=
  match normPrefixAlts.find? (fun p => p.data.isPrefixOf s.data) with
  | none => s
  | some p => ⟨dropWsColonWs (s.data.drop p.length)⟩

/-- Does `\s*:?\s*(required|optional|\(required\)|\(optional\))$` match the
suffix starting exactly here? -/
def suffixMatchHere (cs : List Char) : Bool :=
  let rest := dropWsColonWs cs
  normSuffixAlts.any (fun a => rest = a.data)

/-- `re.sub(r'\s*:?\s*(required|optional|\(required\)|\(optional\))$', '', s)`
(src/ats_field_mapper.py:623): the `$`-anchored pattern matches at most once,
at the leftmost position from which it reaches the end of the string. -/
def stripNormSuffix (s : String) : String :=
  match (List.range (s.data.length + 1)).find?
      (fun i => suffixMatchHere (s.data.drop i)) with
  | none => s
  | some i => ⟨s.data.take i⟩

/-- `re.sub(r'[^\w\s-]', '', s)` (src/ats_field_mapper.py:634). -/
def stripSpecialChars (s : String) : String :=
  ⟨s.data.filter (fun c => pyIsWord c || pyIsSpace c || c = '-')⟩

/-- `re.sub(r'\s+', ' ', s).strip()` (src/ats_field_mapper.py:645). -/
def collapseWs (s : String) : String :=
  String.intercalate " " (pySplitWs s)

/-- `normalize_field_name` (src/ats_field_mapper.py:582-656). Returns the
normalized name and, when `track_steps`, the list of logged steps (each logged
only if it changed the string). -/
def normalizeFieldName (field_name : String) (track_steps : Bool) :
    String × Option (List NormStep) :=
  let original := field_name
  let n1 := pyStrip (pyLower field_name)
  let s1 : List NormStep :=
    if track_steps ∧ n1 ≠ original then
      [⟨"lowercase", "Converted to lowercase", original, n1⟩] else []
  let n2 := stripNormPrefix n1
  let s2 := s1 ++ (if track_steps ∧ n2 ≠ n1 then
      [⟨"remove_prefix", "Removed common prefixes (required:, optional:, etc.)",
        n1, n2⟩] else [])
  let n3 := stripNormSuffix n2
  let s3 := s2 ++ (if track_steps ∧ n3 ≠ n2 then
      [⟨"remove_suffix", "Removed common suffixes ((required), (optional), etc.)",
        n2, n3⟩] else [])
  let n4 := stripSpecialChars n3
  let s4 := s3 ++ (if track_steps ∧ n4 ≠ n3 then
      [⟨"remove_special_chars", "Removed special characters (kept spaces and hyphens)",
        n3, n4⟩] else [])
  let n5 := collapseWs n4
  let s5 := s4 ++ (if track_steps ∧ n5 ≠ n4 then
      [⟨"normalize_whitespace", "Normalized whitespace (collapsed multiple spaces)",
        n4, n5⟩] else [])
  (n5, if track_steps then some s5 else none)

/-! ## Blacklist (`FIELD_BLACKLIST_PATTERNS`, `is_field_blacklisted`,
src/ats_field_mapper.py:519-579)

The 27 blacklist regexes use only literal (lowercase) words, `\b`, `\s+`,
`\s*`, `^` and `$`; they are matched with `re.search` against the normalized
field name, which is lowercase (so `re.IGNORECASE` is a no-op). The matcher
below implements exactly these constructs; consuming a maximal whitespace run
for `\s+`/`\s*` is equivalent to the backtracking semantics because in every
pattern the next token after them is a literal starting with a non-whitespace
character, or the end anchor. -/

/-- Tokens of the restricted regex dialect used by the blacklist patterns. -/
inductive RTok where
  | lit (w : String)
  | wsPlus
  | wsStar
  | wordB
  | bol
  | eol
deriving Repr, DecidableEq

/-- Match a token list at the current position. `prev` is the character just
before the current position (`none` at the string start), used for `\b` and
`^`. `$` is end-of-string (normalized names cannot contain a newline, so the
before-final-newline case of Python `$` cannot arise). -/
def rmatchAt : List RTok → Option Char → List Char → Bool
  | [], _, _ => true
  | RTok.lit w :: ts, _, cs =>
      w.data.isPrefixOf cs &&
        rmatchAt ts (some (w.data.getLastD ' ')) (cs.drop w.data.length)
  | RTok.wsPlus :: ts, _, cs =>
      let run := cs.takeWhile pyIsSpace
      !run.isEmpty && rmatchAt ts (some (run.getLastD ' ')) (cs.dropWhile pyIsSpace)
  | RTok.wsStar :: ts, prev, cs =>
      let run := cs.takeWhile pyIsSpace
      let p := match run.getLast? with | some c => some c | none => prev
      rmatchAt ts p (cs.dropWhile pyIsSpace)
  | RTok.wordB :: ts, prev, cs =>
      let pw := match prev with | some c => pyIsWord c | none => false
      let nw := match cs with | c :: _ => pyIsWord c | [] => false
      (pw != nw) && rmatchAt ts prev cs
  | RTok.bol :: ts, prev, cs => prev.isNone && rmatchAt ts prev cs
  | RTok.eol :: ts, prev, cs => cs.isEmpty && rmatchAt ts prev cs

/-- `re.search`: try to match at every start position, leftmost first. -/
def rsearch (ts : List RTok) : Option Char → List Char → Bool
  | prev, cs =>
      rmatchAt ts prev cs ||
        match cs with
        | [] => false
        | c :: rest => rsearch ts (some c) rest

/-- Search a pattern anywhere in a string. -/
def rsearchStr (ts : List RTok) (s : String) : Bool :=
  rsearch ts none s.data

/-- `FIELD_BLACKLIST_PATTERNS` (src/ats_field_mapper.py:519-556), each paired
with its token transcription, in source order. -/
def FIELD_BLACKLIST_PATTERNS : List (String × List RTok) :=
  [ ("\\binternal\\s+use\\b",
      [.wordB, .lit "internal", .wsPlus, .lit "use", .wordB]),
    ("\\breserved\\b", [.wordB, .lit "reserved", .wordB]),
    ("\\bdo\\s+not\\s+fill\\b",
      [.wordB, .lit "do", .wsPlus, .lit "not", .wsPlus, .lit "fill", .wordB]),
    ("\\bdo\\s+not\\s+complete\\b",
      [.wordB, .lit "do", .wsPlus, .lit "not", .wsPlus, .lit "complete", .wordB]),
    ("\\bnot\\s+for\\s+applicant\\b",
      [.wordB, .lit "not", .wsPlus, .lit "for", .wsPlus, .lit "applicant", .wordB]),
    ("\\bfor\\s+internal\\s+use\\s+only\\b",
      [.wordB, .lit "for", .wsPlus, .lit "internal", .wsPlus, .lit "use",
       .wsPlus, .lit "only", .wordB]),
    ("\\bhr\\s+use\\s+only\\b",
      [.wordB, .lit "hr", .wsPlus, .lit "use", .wsPlus, .lit "only", .wordB]),
    ("\\brecruiter\\s+use\\s+only\\b",
      [.wordB, .lit "recruiter", .wsPlus, .lit "use", .wsPlus, .lit "only", .wordB]),
    ("\\badmin\\s+use\\s+only\\b",
      [.wordB, .lit "admin", .wsPlus, .lit "use", .wsPlus, .lit "only", .wordB]),
    ("\\badministrative\\s+use\\s+only\\b",
      [.wordB, .lit "administrative", .wsPlus, .lit "use", .wsPlus, .lit "only", .wordB]),
    ("\\bhidden\\b", [.wordB, .lit "hidden", .wordB]),
    ("\\bsystem\\s+field\\b",
      [.wordB, .lit "system", .wsPlus, .lit "field", .wordB]),
    ("\\bauto\\s+generated\\b",
      [.wordB, .lit "auto", .wsPlus, .lit "generated", .wordB]),
    ("\\bgenerated\\s+by\\s+system\\b",
      [.wordB, .lit "generated", .wsPlus, .lit "by", .wsPlus, .lit "system", .wordB]),
    ("\\bplaceholder\\b", [.wordB, .lit "placeholder", .wordB]),
    ("\\bexample\\b", [.wordB, .lit "example", .wordB]),
    ("\\bsample\\b", [.wordB, .lit "sample", .wordB]),
    ("\\btest\\s+field\\b",
      [.wordB, .lit "test", .wsPlus, .lit "field", .wordB]),
    ("\\bdemo\\b", [.wordB, .lit "demo", .wordB]),
    ("\\bdisabled\\b", [.wordB, .lit "disabled", .wordB]),
    ("\\binactive\\b", [.wordB, .lit "inactive", .wordB]),
    ("\\bnot\\s+in\\s+use\\b",
      [.wordB, .lit "not", .wsPlus, .lit "in", .wsPlus, .lit "use", .wordB]),
    ("\\bdeprecated\\b", [.wordB, .lit "deprecated", .wordB]),
    ("^\\s*comment\\s*$", [.bol, .wsStar, .lit "comment", .wsStar, .eol]),
    ("^\\s*note\\s*$", [.bol, .wsStar, .lit "note", .wsStar, .eol]),
    ("^\\s*notes\\s*$", [.bol, .wsStar, .lit "notes", .wsStar, .eol]),
    ("^\\s*remarks\\s*$", [.bol, .wsStar, .lit "remarks", .wsStar, .eol]) ]

/-- `is_field_blacklisted` (src/ats_field_mapper.py:559-579): normalize, then
return the first matching pattern. -/
def isFieldBlacklisted (field_name : String) : Bool × Option String :=
  match FIELD_BLACKLIST_PATTERNS.find?
      (fun p => rsearchStr p.2 (normalizeFieldName field_name false).1) with
  | some p => (true, some p.1)
  | none => (false, none)

/-! ## `difflib.SequenceMatcher(None, a, b).ratio()`

`fuzzy_match_field` scores candidates with CPython's
`SequenceMatcher.ratio() = 2*M/T`, where `M` is the total size of the matching
blocks and `T = len(a) + len(b)`. With `isjunk=None` and strings shorter than
200 characters (every normalized name and table key here) the junk and
autojunk machinery is inert, so `find_longest_match` reduces to: scanning end
positions `(i, j)` in lexicographic order, track the longest common substring
of the two ranges, strictly-longer matches winning — which yields the maximal
block starting earliest in `a`, then earliest in `b`. `get_matching_blocks`
recursively splits around that block; adjacent-block merging changes only the
block list, not the total `M`. -/

/-- One dynamic-programming row: entry `j` is the length of the common suffix
of `a[..i]` and `b[..j]` ending at `(i, j)`. `prow` is the previous row
aligned so its head is the diagonal predecessor of the NEXT cell; `diag` is
the predecessor of the current cell. -/
def flmRow (ai : Char) : List Char → List Nat → Nat → List Nat
  | [], _, _ => []
  | c :: cs, prow, diag =>
      (if c = ai then diag + 1 else 0) :: flmRow ai cs (prow.drop 1) (prow.headD 0)

/-- Scan a row (ascending `j`), replacing the best `(besti, bestj, bestsize)`
whenever a strictly larger match size appears — mirroring `k > bestsize` in
`find_longest_match`. `i` is the absolute row index, `blo + jo` the absolute
column. -/
def flmScanRow (i blo : Nat) : List Nat → Nat → Nat × Nat × Nat → Nat × Nat × Nat
  | [], _, best => best
  | k :: ks, jo, (bi, bj, bk) =>
      flmScanRow i blo ks (jo + 1)
        (if k > bk then (i + 1 - k, blo + jo + 1 - k, k) else (bi, bj, bk))

/-- Row-by-row driver over the `a`-range. -/
def flmGo (bs : List Char) (blo : Nat) :
    List (Nat × Char) → List Nat → Nat × Nat × Nat → Nat × Nat × Nat
  | [], _, best => best
  | (i, ai) :: rest, row, best =>
      let nrow := flmRow ai bs row 0
      flmGo bs blo rest nrow (flmScanRow i blo nrow 0 best)

/-- `SequenceMatcher.find_longest_match(alo, ahi, blo, bhi)` (junk-free case):
returns `(besti, bestj, bestsize)`. -/
def findLongestMatch (a b : List Char) (alo ahi blo bhi : Nat) : Nat × Nat × Nat :=
  let aslice := (a.drop alo).take (ahi - alo)
  let bslice := (b.drop blo).take (bhi - blo)
  let idxs := (List.range aslice.length).map (· + alo)
  flmGo bslice blo (idxs.zip aslice) (bslice.map fun _ => 0) (alo, blo, 0)

/-- Total matched size over `get_matching_blocks`: recursively split around
the longest match. The fuel argument only bounds the recursion depth; any
fuel exceeding the `a`-range length is enough, because each recursive call
strictly shrinks that range (the split block is nonempty). -/
def matchBlocksTotal (a b : List Char) :
    Nat → Nat → Nat → Nat → Nat → Nat
  | 0, _, _, _, _ => 0
  | fuel + 1, alo, ahi, blo, bhi =>
      match findLongestMatch a b alo ahi blo bhi with
      | (i, j, k) =>
        if k = 0 then 0
        else k + matchBlocksTotal a b fuel alo i blo j
               + matchBlocksTotal a b fuel (i + k) ahi (j + k) bhi

/-- Total size `M` of the matching blocks of two strings. -/
def seqMatchTotal (a b : List Char) : Nat :=
  matchBlocksTotal a b (a.length + 1) 0 a.length 0 b.length

/-- `SequenceMatcher.ratio()`: `2*M/T` (written `mkRat` for kernel
reducibility; the denominator is nonzero in that branch, where `mkRat` is
exact rational division), and `1.0` for two empty strings
(difflib `_calculate_ratio`). -/
def seqMatchScore (a b : List Char) : ℚ :=
  let total := a.length + b.length
  if total = 0 then 1 else mkRat (2 * seqMatchTotal a b) total

/-- Kernel-reducible rational multiplication: this toolchain marks `Rat.mul`
`@[irreducible]`, which blocks evaluation of concrete instances inside
proofs; `qMul` is extensionally equal to `*` (`qMul_eq_mul`) and is used
wherever the source multiplies scores. -/
def qMul (a b : ℚ) : ℚ := mkRat (a.num * b.num) (a.den * b.den)

theorem qMul_eq_mul (a b : ℚ) : qMul a b = a * b :=
  (Rat.mul_eq_mkRat a b).symm

/-! ## Fuzzy matcher (`fuzzy_match_field`, src/ats_field_mapper.py:659-762)

The explainability payloads below model the data fields of the dicts the
source builds (`normalization`, `matching`, alternatives, scores, threshold);
the free-text `reasoning` strings — f-strings interpolating float formatting —
are not modeled, and no claim refers to them. -/

/-- One entry of `alternatives_considered` (the Python dict has keys `field`,
`canonical`, `similarity`, `partial_match`; the last is named
`substringBoost` here). -/
structure FuzzyAlt where
  field : String
  canonical : String
  similarity : ℚ
  substringBoost : Bool
deriving Repr, DecidableEq

/-- The `matching` sub-dict of a fuzzy-match explanation. -/
structure MatchInfo where
  method : Option String
  matched_field : Option String
  similarity_score : Option ℚ
  alternatives_considered : List FuzzyAlt
  threshold : ℚ
deriving Repr, DecidableEq

/-- The `normalization` sub-dict of a fuzzy-match explanation. -/
structure NormInfo where
  original : String
  normalized : String
  steps : List NormStep
deriving Repr, DecidableEq

/-- The explanation dict returned by `fuzzy_match_field` when `explain=True`. -/
structure FuzzyExplain where
  normalization : NormInfo
  matching : MatchInfo
deriving Repr, DecidableEq

/-- Stable insertion step: place `x` after every already-placed element whose
key is `≥ key x`. -/
def pyInsertDescBy (ge : α → α → Bool) (x : α) : List α → List α
  | [] => [x]
  | y :: ys => if ge y x then y :: pyInsertDescBy ge x ys else x :: y :: ys

/-- Python `list.sort(key=…, reverse=True)`: stable descending sort, modeled
as left-to-right stable insertion. `ge a b` reads "key of `a` ≥ key of `b`". -/
def pySortDescBy (ge : α → α → Bool) (l : List α) : List α :=
  l.foldl (fun acc x => pyInsertDescBy ge x acc) []

/-- The scan loop of `fuzzy_match_field` (src/ats_field_mapper.py:713-739):
fold over the synonym table in insertion order, tracking
`(best_match, best_score, best_matched_field)` (updated on strictly greater
score) and, when `explain`, the `alternatives` list in scan order. -/
def fuzzyScanStep (normalized : String) (explain : Bool)
    (acc : Option CanonicalField × ℚ × Option String × List FuzzyAlt)
    (kv : String × CanonicalField) :
    Option CanonicalField × ℚ × Option String × List FuzzyAlt :=
  let (bm, bs, bf, alts) := acc
  let (ats_field, cf) := kv
  let score0 := seqMatchScore normalized.data ats_field.data
  let boosted := pyInStr normalized ats_field || pyInStr ats_field normalized
  let score := if boosted then max score0 (mkRat 17 20) else score0
  let alts := if explain then alts ++ [⟨ats_field, cf.value, score, boosted⟩] else alts
  if score > bs then (some cf, score, some ats_field, alts)
  else (bm, bs, bf, alts)

def fuzzyScan (normalized : String) (explain : Bool) :
    Option CanonicalField × ℚ × Option String × List FuzzyAlt :=
  ATS_FIELD_MAPPINGS.foldl (fuzzyScanStep normalized explain) (none, 0, none, [])

/-- `fuzzy_match_field(field_name, threshold, explain)`
(src/ats_field_mapper.py:659-762): exact synonym-table lookup first
(score 1.0); otherwise the fuzzy scan; returns `(None, 0.0, explanation)`
below threshold. -/
def fuzzyMatchField (field_name : String) (threshold : ℚ) (explain : Bool) :
    Option CanonicalField × ℚ × Option FuzzyExplain :=
  let (normalized, stepsOpt) := normalizeFieldName field_name explain
  match ATS_FIELD_MAPPINGS.lookup normalized with
  | some canonical_field =>
      let ex := if explain then
          some { normalization := ⟨field_name, normalized, stepsOpt.getD []⟩,
                 matching := ⟨some "exact", some normalized, some 1, [], threshold⟩ }
        else none
      (some canonical_field, 1, ex)
  | none =>
      let (bm, bs, bf, alts) := fuzzyScan normalized explain
      let ex := if explain then
          some { normalization := ⟨field_name, normalized, stepsOpt.getD []⟩,
                 matching := ⟨some (if bs ≥ threshold then "fuzzy" else "none"), bf,
                   some bs,
                   (pySortDescBy (fun a b => a.similarity ≥ b.similarity) alts).take 5,
                   threshold⟩ }
        else none
      if bs ≥ threshold then (bm, bs, ex) else (none, 0, ex)

/-! ## Helper extractors and parsers
(src/ats_field_mapper.py:765-812) -/

/-- `_extract_first_name` (src/ats_field_mapper.py:765-770). -/
def extractFirstName (full_name : Option String) : Option String :=
  match full_name with
  | none => none
  | some s =>
      if s = "" then none
      else
        match pySplitWs (pyStrip s) with
        | [] => none
        | p :: _ => some p

/-- `_extract_last_name` (src/ats_field_mapper.py:773-780): join all tokens
after the first. -/
def extractLastName (full_name : Option String) : Option String :=
  match full_name with
  | none => none
  | some s =>
      if s = "" then none
      else
        let parts := pySplitWs (pyStrip s)
        if parts.length ≥ 2 then some (String.intercalate " " parts.tail)
        else none

/-- `_parse_year` (src/ats_field_mapper.py:783-793): `int()` then range check
1900–2100. -/
def parseYear (year_str : Option String) : Option Int :=
  match year_str with
  | none => none
  | some s =>
      if s = "" then none
      else
        match pyIntOfString s with
        | none => none
        | some y => if 1900 ≤ y ∧ y ≤ 2100 then some y else none

/-- Python `a or b` on optional strings (`entry.get('degree') or
entry.get('degree_raw')`): first operand unless it is falsy (`None` or `""`). -/
def pyOrStr (a b : Option String) : Option String :=
  match a with
  | some s => if s ≠ "" then some s else b
  | none => b

/-- `_get_degree_level` (src/ats_field_mapper.py:796-812): keyword containment
against the lowercased degree text. -/
def getDegreeLevel (degree : Option String) : Nat :=
  match degree with
  | none => 0
  | some d =>
      if d = "" then 0
      else
        let dl := pyLower d
        if ["phd", "ph.d", "doctorate", "d.phil"].any (fun t => pyInStr t dl) then 4
        else if ["master", "m.s", "m.a", "mba", "m.tech"].any (fun t => pyInStr t dl) then 3
        else if ["bachelor", "b.s", "b.a", "b.tech", "b.e"].any (fun t => pyInStr t dl) then 2
        else if ["associate", "diploma"].any (fun t => pyInStr t dl) then 1
        else 0

/-! ## Resume data model

`ResumeRecord` models the documented resume-data shape consumed read-only by
the mapper (module docstring `Input Contracts`, src/ats_field_mapper.py:69-72:
`name, email, phone, education, skills, experience, projects`), with each
sub-record a string-keyed map of optional string values. `SubEntry` has every
sub-record key any embedded function reads; keys absent from a Python dict are
`none`. -/

structure SubEntry where
  degree : Option String := none
  degree_raw : Option String := none
  institution : Option String := none
  start_year : Option String := none
  end_year : Option String := none
  gpa : Option String := none
  title : Option String := none
  company : Option String := none
  description : Option String := none
  name : Option String := none
  raw_date : Option String := none
  duration : Option String := none
  year : Option String := none
deriving Repr, DecidableEq

structure ResumeRecord where
  name : Option String := none
  email : Option String := none
  phone : Option String := none
  education : List SubEntry := []
  experience : List SubEntry := []
  projects : List SubEntry := []
  skills : List String := []
deriving Repr, DecidableEq

/-! ## Entry selectors (src/ats_field_mapper.py:815-987) -/

/-- Loop body of the `MOST_RECENT` branch, shared verbatim by
`_select_education_entry` (src/ats_field_mapper.py:832-844) and
`_select_experience_entry` (src/ats_field_mapper.py:909-921). The first
iteration — where `best_year is None` makes the update unconditional, or a
`None` parsed end-year returns immediately — is unrolled into
`selectMostRecentEntry`; thereafter `best_year` is always a concrete `Int`.
A parsed year is 1900–2100, hence nonzero, so Python truthiness of parsed
years coincides with `isSome` throughout. -/
def selectMostRecentAux : List SubEntry → Nat → Nat → SubEntry → Int → Nat × SubEntry
  | [], _, bi, be, _ => (bi, be)
  | e :: rest, idx, bi, be, bestYear =>
      match parseYear e.end_year with
      | none => (idx, e)
      | some y =>
          if bestYear < y then selectMostRecentAux rest (idx + 1) idx e y
          else selectMostRecentAux rest (idx + 1) bi be bestYear

/-- `MOST_RECENT` selection over a (possibly empty) entry list. -/
def selectMostRecentEntry (l : List SubEntry) : Option Nat × Option SubEntry :=
  match l with
  | [] => (none, none)
  | e :: rest =>
      match parseYear e.end_year with
      | none => (some 0, some e)
      | some y =>
          let (i, ent) := selectMostRecentAux rest 1 0 e y
          (some i, some ent)

/-- Loop of the `LONGEST` branch, shared verbatim by education
(src/ats_field_mapper.py:846-874) and experience
(src/ats_field_mapper.py:923-951): track the best completed duration
(strictly-greater updates) and the last entry with a start year but no end
year (`ongoing_idx`/`current_idx`). -/
def selectLongestAux : List SubEntry → Nat → Nat → SubEntry → Int →
    Option (Nat × SubEntry) → Nat × SubEntry × Int × Option (Nat × SubEntry)
  | [], _, bi, be, bd, ong => (bi, be, bd, ong)
  | e :: rest, idx, bi, be, bd, ong =>
      match parseYear e.start_year, parseYear e.end_year with
      | some s, some en =>
          let d := en - s
          if d > bd then selectLongestAux rest (idx + 1) idx e d ong
          else selectLongestAux rest (idx + 1) bi be bd ong
      | some _, none => selectLongestAux rest (idx + 1) bi be bd (some (idx, e))
      | none, _ => selectLongestAux rest (idx + 1) bi be bd ong

/-- `LONGEST` selection over a (possibly empty) entry list: best completed
duration if any (`best_duration >= 0`), else the ongoing entry, else index 0. -/
def selectLongestEntry (l : List SubEntry) : Option Nat × Option SubEntry :=
  match l with
  | [] => (none, none)
  | e0 :: _ =>
      let (bi, be, bd, ong) := selectLongestAux l 0 0 e0 (-1) none
      if bd ≥ 0 then (some bi, some be)
      else
        match ong with
        | some (oi, oe) => (some oi, some oe)
        | none => (some 0, some e0)

/-- Loop of the `HIGHEST_DEGREE` branch of `_select_education_entry`
(src/ats_field_mapper.py:876-886): highest degree level, strictly-greater
updates (first occurrence wins ties), starting from `best_level = -1`. -/
def selectHighestDegreeAux : List SubEntry → Nat → Nat → SubEntry → Int → Nat × SubEntry
  | [], _, bi, be, _ => (bi, be)
  | e :: rest, idx, bi, be, bl =>
      let lvl : Int := getDegreeLevel (pyOrStr e.degree e.degree_raw)
      if lvl > bl then selectHighestDegreeAux rest (idx + 1) idx e lvl
      else selectHighestDegreeAux rest (idx + 1) bi be bl

/-- `_select_education_entry` (src/ats_field_mapper.py:815-889). -/
def selectEducationEntry (l : List SubEntry) (strategy : SelectionStrategy) :
    Option Nat × Option SubEntry :=
  match l with
  | [] => (none, none)
  | e0 :: _ =>
      match strategy with
      | .most_recent => selectMostRecentEntry l
      | .longest => selectLongestEntry l
      | .highest_degree =>
          let (i, e) := selectHighestDegreeAux l 0 0 e0 (-1)
          (some i, some e)

/-- `_select_experience_entry` (src/ats_field_mapper.py:892-954);
`HIGHEST_DEGREE` falls back to `MOST_RECENT` (line 954). -/
def selectExperienceEntry (l : List SubEntry) (strategy : SelectionStrategy) :
    Option Nat × Option SubEntry :=
  match l with
  | [] => (none, none)
  | _ :: _ =>
      match strategy with
      | .most_recent => selectMostRecentEntry l
      | .longest => selectLongestEntry l
      | .highest_degree => selectMostRecentEntry l

/-- Loop of the `LONGEST` branch of `_select_project_entry`
(src/ats_field_mapper.py:974-984): longest description, with
`len(description) if description else 0` (`None` and `""` both give 0). -/
def selectProjectAux : List SubEntry → Nat → Nat → SubEntry → Int → Nat × SubEntry
  | [], _, bi, be, _ => (bi, be)
  | e :: rest, idx, bi, be, bl =>
      let len : Int := match e.description with
        | some d => d.length
        | none => 0
      if len > bl then selectProjectAux rest (idx + 1) idx e len
      else selectProjectAux rest (idx + 1) bi be bl

/-- `_select_project_entry` (src/ats_field_mapper.py:957-987): `LONGEST` picks
the longest description; `MOST_RECENT`/`HIGHEST_DEGREE` default to index 0. -/
def selectProjectEntry (l : List SubEntry) (strategy : SelectionStrategy) :
    Option Nat × Option SubEntry :=
  match l with
  | [] => (none, none)
  | e0 :: _ =>
      match strategy with
      | .longest =>
          let (i, e) := selectProjectAux l 0 0 e0 (-1)
          (some i, some e)
      | _ => (some 0, some e0)

/-! ## Schema-path resolution (`map_field_to_schema_path`,
src/ats_field_mapper.py:990-1095) -/

/-- A value pulled out of the resume record (`Any` in the Python contract):
a string, a boolean (the `experience.current` derivation), or the skills
list. A missing value is `Option.none` at the use site. -/
inductive MapValue where
  | str (s : String)
  | bool (b : Bool)
  | strList (l : List String)
deriving Repr, DecidableEq

/-- `resume_data.get(field_str)` for the direct scalar branch
(src/ats_field_mapper.py:1032): the record carries the seven documented
top-level keys, so every other canonical scalar name misses (`None`).
The list-valued keys are unreachable in that branch (`full_name`,
`first_name`, `last_name`, `phone_number` and `skills` are special-cased
before it). -/
def resumeGet (r : ResumeRecord) (key : String) : Option MapValue :=
  if key = "name" then r.name.map .str
  else if key = "email" then r.email.map .str
  else if key = "phone" then r.phone.map .str
  else none

/-- `map_field_to_schema_path(canonical_field, resume_data, selection_strategy)`
(src/ats_field_mapper.py:990-1095), case by canonical field. The branch
structure in the source is string-driven (`field_str = canonical_field.value`,
`'.' in field_str`, `field_str.split('.')`); since `value` is injective on the
enum this match enumerates exactly the same branches. -/
def mapFieldToSchemaPath (cf : CanonicalField) (r : ResumeRecord)
    (strategy : SelectionStrategy) : Option String × Option MapValue :=
  match cf with
  | .full_name => (some "name", r.name.map .str)
  | .first_name => (some "name (first)", (extractFirstName r.name).map .str)
  | .last_name => (some "name (last)", (extractLastName r.name).map .str)
  | .phone_number => (some "phone", r.phone.map .str)
  | .skills => (some "skills", some (.strList r.skills))
  | .email => (some "email", resumeGet r "email")
  | .phone => (some "phone", resumeGet r "phone")
  | .address => (some "address", resumeGet r "address")
  | .city => (some "city", resumeGet r "city")
  | .state => (some "state", resumeGet r "state")
  | .zip_code => (some "zip_code", resumeGet r "zip_code")
  | .country => (some "country", resumeGet r "country")
  | .linkedin_url => (some "linkedin_url", resumeGet r "linkedin_url")
  | .github_url => (some "github_url", resumeGet r "github_url")
  | .portfolio_url => (some "portfolio_url", resumeGet r "portfolio_url")
  | .website => (some "website", resumeGet r "website")
  | .resume_file => (some "resume_file", resumeGet r "resume_file")
  | .cover_letter => (some "cover_letter", resumeGet r "cover_letter")
  | .availability => (some "availability", resumeGet r "availability")
  | .salary_expectation => (some "salary_expectation", resumeGet r "salary_expectation")
  | .work_authorization => (some "work_authorization", resumeGet r "work_authorization")
  | .education_degree =>
      match selectEducationEntry r.education strategy with
      | (some idx, some entry) =>
          (some ("education[" ++ toString idx ++ "].degree"), entry.degree.map .str)
      | _ => (none, none)
  | .education_institution =>
      match selectEducationEntry r.education strategy with
      | (some idx, some entry) =>
          (some ("education[" ++ toString idx ++ "].institution"),
           entry.institution.map .str)
      | _ => (none, none)
  | .education_start_date =>
      match selectEducationEntry r.education strategy with
      | (some idx, some entry) =>
          (some ("education[" ++ toString idx ++ "].start_year"),
           entry.start_year.map .str)
      | _ => (none, none)
  | .education_end_date =>
      match selectEducationEntry r.education strategy with
      | (some idx, some entry) =>
          (some ("education[" ++ toString idx ++ "].end_year"),
           entry.end_year.map .str)
      | _ => (none, none)
  | .education_major =>
      match selectEducationEntry r.education strategy with
      | (some idx, some entry) =>
          let degree :=
            match pyOrStr entry.degree (some (entry.degree_raw.getD "")) with
            | some s => s
            | none => ""
          if pyInStr " in " degree then
            (some ("education[" ++ toString idx ++ "].major"),
             some (.str (String.intercalate " in " (pySplitOnSub degree " in ").tail)))
          else
            (some ("education[" ++ toString idx ++ "].major"), none)
      | _ => (none, none)
  | .education_gpa =>
      match selectEducationEntry r.education strategy with
      | (some idx, some entry) =>
          (some ("education[" ++ toString idx ++ "].gpa"), entry.gpa.map .str)
      | _ => (none, none)
  | .experience_title =>
      match selectExperienceEntry r.experience strategy with
      | (some idx, some entry) =>
          (some ("experience[" ++ toString idx ++ "].title"), entry.title.map .str)
      | _ => (none, none)
  | .experience_company =>
      match selectExperienceEntry r.experience strategy with
      | (some idx, some entry) =>
          (some ("experience[" ++ toString idx ++ "].company"), entry.company.map .str)
      | _ => (none, none)
  | .experience_start_date =>
      match selectExperienceEntry r.experience strategy with
      | (some idx, some entry) =>
          (some ("experience[" ++ toString idx ++ "].start_year"),
           entry.start_year.map .str)
      | _ => (none, none)
  | .experience_end_date =>
      match selectExperienceEntry r.experience strategy with
      | (some idx, some entry) =>
          (some ("experience[" ++ toString idx ++ "].end_year"),
           entry.end_year.map .str)
      | _ => (none, none)
  | .experience_description =>
      match selectExperienceEntry r.experience strategy with
      | (some idx, some entry) =>
          (some ("experience[" ++ toString idx ++ "].description"),
           entry.description.map .str)
      | _ => (none, none)
  | .experience_current =>
      match selectExperienceEntry r.experience strategy with
      | (some idx, some entry) =>
          (some ("experience[" ++ toString idx ++ "].current"),
           some (.bool entry.end_year.isNone))
      | _ => (none, none)
  | .project_name =>
      match selectProjectEntry r.projects strategy with
      | (some idx, some entry) =>
          (some ("projects[" ++ toString idx ++ "].name"), entry.name.map .str)
      | _ => (none, none)
  | .project_description =>
      match selectProjectEntry r.projects strategy with
      | (some idx, some entry) =>
          (some ("projects[" ++ toString idx ++ "].description"),
           entry.description.map .str)
      | _ => (none, none)

/-! ## Mapping orchestrator (`map_ats_field`, src/ats_field_mapper.py:1198-1535) -/

/-- The `confidence_calculation` explainability sub-dict (data fields only;
the `reasoning` f-string is not modeled). -/
structure ConfCalc where
  raw_score : ℚ
  sensitivity_weight : ℚ
  sensitivity_category : String
  weighted_confidence : ℚ
  threshold : ℚ
  passed_threshold : Bool
deriving Repr, DecidableEq

/-- The `selection` explainability sub-dict (data fields only). -/
structure SelInfo where
  category : String
  strategy : String
  total_entries : Nat
  selected_index : Option Nat
deriving Repr, DecidableEq

/-- The map-level `explainability` dict (the `human_readable_summary`
f-string is not modeled). -/
structure MapExplain where
  field_name_normalization : Option NormInfo
  field_matching : Option MatchInfo
  confidence_calculation : Option ConfCalc
  selection : Option SelInfo
deriving Repr, DecidableEq

/-- `map_ats_field`'s `explainability` value: on the no-match path the source
stores the fuzzy-level explanation dict itself (src/ats_field_mapper.py:1357);
on the other paths it builds the map-level dict. -/
inductive ExplainPayload where
  | fuzzyLevel (e : FuzzyExplain)
  | mapLevel (e : MapExplain)
deriving Repr, DecidableEq

/-- The result dict of `map_ats_field` (output contract,
src/ats_field_mapper.py:90-108). Keys absent from a given Python result dict
(`blacklist_reason` on the success path, `explainability` when
`explain=False`) are `none`. -/
structure MappingResult where
  canonical_field : Option String
  schema_path : Option String
  value : Option MapValue
  match_type : Option String
  confidence : ℚ
  raw_score : ℚ
  sensitivity_weight : Option ℚ
  selection_strategy : Option String
  selected_index : Option Nat
  ats_field_name : String
  normalized_field_name : Option String
  canonical_schema_version : String
  blacklist_reason : Option String := none
  explainability : Option ExplainPayload := none
deriving Repr, DecidableEq

/-- The sensitivity-category label (src/ats_field_mapper.py:1404-1409);
`mkRat 1 2 = 0.5`, `mkRat 7 10 = 0.7`, `mkRat 17 20 = 0.85`. -/
def sensitivityCategory (w : ℚ) : String :=
  if w = mkRat 1 2 then "CRITICAL"
  else if w = mkRat 7 10 then "HIGH"
  else if w = mkRat 17 20 then "MEDIUM"
  else "STANDARD"

/-- The category test used at src/ats_field_mapper.py:1450-1453 and 1493-1495:
`'.' in field_str` and `field_str.split('.')[0] in
['education', 'experience', 'project']`. -/
def categoryOf (cf : CanonicalField) : Option String :=
  let fs := cf.value
  if pyInStr "." fs then
    let cat := ((pySplitOnSub fs ".").headD "")
    if cat = "education" ∨ cat = "experience" ∨ cat = "project" then some cat
    else none
  else none

/-- `resume_data.get(category, [])` (src/ats_field_mapper.py:1496). Note the
source quirk reproduced faithfully: for project fields `category` is
`"project"` but the resume key is `"projects"`, so the lookup misses and
yields `[]`. -/
def categoryList (r : ResumeRecord) (cat : String) : List SubEntry :=
  if cat = "education" then r.education
  else if cat = "experience" then r.experience
  else []

/-- `re.search(r'\[(\d+)\]', schema_path)` then `int(group(1))`
(src/ats_field_mapper.py:1458-1461): first `[`-digits-`]` group. -/
def extractBracketIndex : List Char → Option Nat
  | [] => none
  | '[' :: rest =>
      let ds := rest.takeWhile Char.isDigit
      let rest2 := rest.dropWhile Char.isDigit
      if ds ≠ [] ∧ rest2.headD ' ' = ']' then some (digitsToNat ds)
      else extractBracketIndex rest
  | _ :: rest => extractBracketIndex rest

/-- Selected-index extraction from a schema path
(src/ats_field_mapper.py:1457-1461): `if schema_path and '[' in schema_path`
then the regex search (every produced path is nonempty, so Python truthiness
of `schema_path` is `isSome`). -/
def selectedIndexOf (schema_path : Option String) : Option Nat :=
  match schema_path with
  | some p => if pyInStr "[" p then extractBracketIndex p.data else none
  | none => none

/-- `map_ats_field(ats_field_name, resume_data, selection_strategy,
fuzzy_threshold, explain)` (src/ats_field_mapper.py:1198-1535). -/
def mapAtsField (ats_field_name : String) (resume_data : ResumeRecord)
    (selection_strategy : SelectionStrategy) (fuzzy_threshold : ℚ)
    (explain : Bool) : Option MappingResult :=
  match isFieldBlacklisted ats_field_name with
  | (true, matched_pattern) =>
      let base : MappingResult :=
        { canonical_field := none, schema_path := none, value := none,
          match_type := some "ignored", confidence := 0, raw_score := 0,
          sensitivity_weight := none, selection_strategy := none,
          selected_index := none, ats_field_name := ats_field_name,
          normalized_field_name := none,
          canonical_schema_version := CANONICAL_SCHEMA_VERSION,
          blacklist_reason :=
            some ("Field matches blacklist pattern: " ++ matched_pattern.getD "") }
      if explain then
        let (normalized, steps) := normalizeFieldName ats_field_name true
        some { base with
          normalized_field_name := some normalized,
          explainability := some (.mapLevel
            { field_name_normalization :=
                some ⟨ats_field_name, normalized, steps.getD []⟩,
              field_matching :=
                some ⟨some "ignored", none, none, [], fuzzy_threshold⟩,
              confidence_calculation := none, selection := none }) }
      else some base
  | (false, _) =>
  match fuzzyMatchField ats_field_name fuzzy_threshold explain with
  | (none, raw_score, matchExpl) =>
      if explain then
        some { canonical_field := none, schema_path := none, value := none,
               match_type := none, confidence := 0, raw_score := raw_score,
               sensitivity_weight := none, selection_strategy := none,
               selected_index := none, ats_field_name := ats_field_name,
               normalized_field_name := matchExpl.map (·.normalization.normalized),
               canonical_schema_version := CANONICAL_SCHEMA_VERSION,
               explainability := matchExpl.map .fuzzyLevel }
      else none
  | (some canonical_field, raw_score, matchExpl) =>
      let match_type := if raw_score = 1 then "exact" else "fuzzy"
      let sensitivity_weight := fieldWeight canonical_field
      let confidence := if match_type = "exact" then 1
                        else qMul raw_score sensitivity_weight
      if match_type = "fuzzy" ∧ confidence < fuzzy_threshold then
        if explain then
          some { canonical_field := some canonical_field.value,
                 schema_path := none, value := none,
                 match_type := some "fuzzy", confidence := confidence,
                 raw_score := raw_score,
                 sensitivity_weight := some sensitivity_weight,
                 selection_strategy := none, selected_index := none,
                 ats_field_name := ats_field_name,
                 normalized_field_name := matchExpl.map (·.normalization.normalized),
                 canonical_schema_version := CANONICAL_SCHEMA_VERSION,
                 explainability := some (.mapLevel
                   { field_name_normalization := matchExpl.map (·.normalization),
                     field_matching := matchExpl.map (·.matching),
                     confidence_calculation := some
                       ⟨raw_score, sensitivity_weight,
                        sensitivityCategory sensitivity_weight, confidence,
                        fuzzy_threshold, false⟩,
                     selection := none }) }
        else none
      else
        match mapFieldToSchemaPath canonical_field resume_data selection_strategy with
        | (schema_path, value) =>
          if (schema_path = none ∨ value = none) ∧ (categoryOf canonical_field).isSome
          then none
          else
            let selected_index := selectedIndexOf schema_path
            let explainability :=
              if explain then
                some (.mapLevel
                  { field_name_normalization := matchExpl.map (·.normalization),
                    field_matching := matchExpl.map (·.matching),
                    confidence_calculation := some
                      ⟨raw_score, sensitivity_weight,
                       sensitivityCategory sensitivity_weight, confidence,
                       fuzzy_threshold, decide (confidence ≥ fuzzy_threshold)⟩,
                    selection := (categoryOf canonical_field).map fun cat =>
                      { category := cat,
                        strategy := selection_strategy.value,
                        total_entries := (categoryList resume_data cat).length,
                        selected_index := selected_index } })
              else none
            some { canonical_field := some canonical_field.value,
                   schema_path := schema_path, value := value,
                   match_type := some match_type, confidence := confidence,
                   raw_score := raw_score,
                   sensitivity_weight := some sensitivity_weight,
                   selection_strategy := some selection_strategy.value,
                   selected_index := selected_index,
                   ats_field_name := ats_field_name,
                   normalized_field_name := matchExpl.map (·.normalization.normalized),
                   canonical_schema_version := CANONICAL_SCHEMA_VERSION,
                   explainability := explainability }

/-! ## Batch mapping (`map_multiple_fields`, src/ats_field_mapper.py:1538-1584) -/

/-- Insertion-ordered dict assignment `results[field_name] = mapping`:
overwrite in place if the key exists, else append. -/
def dictInsert (d : List (String × MappingResult)) (k : String)
    (v : MappingResult) : List (String × MappingResult) :=
  match d with
  | [] => [(k, v)]
  | (k0, v0) :: rest =>
      if k0 = k then (k0, v) :: rest else (k0, v0) :: dictInsert rest k v

/-- `map_multiple_fields` (src/ats_field_mapper.py:1538-1584): apply
`map_ats_field` to each name in input order, keeping only truthy (non-`None`;
every result dict is nonempty hence truthy) results keyed by the original
field name. -/
def mapMultipleFields (ats_field_names : List String)
    (resume_data : ResumeRecord) (selection_strategy : SelectionStrategy)
    (fuzzy_threshold : ℚ) (explain : Bool) : List (String × MappingResult) :=
  ats_field_names.foldl
    (fun results field_name =>
      match mapAtsField field_name resume_data selection_strategy
          fuzzy_threshold explain with
      | some mapping => dictInsert results field_name mapping
      | none => results)
    []

/-! ## Resume normalizer: year validation and chronological sorting
(src/resume_normalizer.py:1133-1195, 1365-1389) -/

/-- `ResumeNormalizer._validate_year` (src/resume_normalizer.py:1170-1195):
accept only a 4-digit string in [1900, 2100] (after `str(...).strip()`),
returning the stripped string, else `None`. -/
def validateYear (year : Option String) : Option String :=
  match year with
  | none => none
  | some y =>
      if y = "" then none
      else
        let ys := pyStrip y
        if ¬ (pyIsDigitStr ys) ∨ ys.length ≠ 4 then none
        else
          let yi := digitsToNat ys.data
          if 1900 ≤ yi ∧ yi ≤ 2100 then some ys else none

/-- Per-entry step of `ResumeNormalizer._normalize_education`
(src/resume_normalizer.py:1140-1157) restricted to the fields the
chronological sort reads: `start_year`/`end_year` are validated via
`_validate_year`; `degree`/`institution` receive cosmetic string
canonicalizations (`_normalize_degree`, `_normalize_institution`) never read
by the sort and are carried through unchanged here; `degree_raw`, `raw_date`
and `year` are carried unchanged exactly as in the source. -/
def normalizeEduEntryYears (e : SubEntry) : SubEntry :=
  { e with start_year := validateYear e.start_year,
           end_year := validateYear e.end_year }

/-- Education sort key (src/resume_normalizer.py:1161-1166):
`int(x['end_year']) if x['end_year'] and x['end_year'].isdigit() else 0`. -/
def eduSortKey (x : SubEntry) : Int :=
  match x.end_year with
  | some s => if s ≠ "" ∧ pyIsDigitStr s then (digitsToNat s.data : Int) else 0
  | none => 0

/-- `_normalize_education` (src/resume_normalizer.py:1133-1168):
normalize entries, then stable sort descending by `eduSortKey`
(`reverse=True` keeps equal keys in original order). -/
def normalizeEducationEntries (education : List SubEntry) : List SubEntry :=
  pySortDescBy (fun a b => eduSortKey a ≥ eduSortKey b)
    (education.map normalizeEduEntryYears)

/-- Per-entry step of `ResumeNormalizer._normalize_experience`
(src/resume_normalizer.py:1369-1378): builds a dict with keys `title`,
`company`, `start_year`, `end_year`, `raw_date`, `duration`; the years are
carried over RAW (no `_validate_year` call, unlike education);
`title`/`company` receive cosmetic canonicalizations
(`_normalize_job_title`, `_normalize_company`) never read by the sort and
are carried through unchanged here. -/
def normalizeExpEntry (e : SubEntry) : SubEntry :=
  { title := e.title, company := e.company,
    start_year := e.start_year, end_year := e.end_year,
    raw_date := e.raw_date, duration := e.duration }

/-- Experience sort key (src/resume_normalizer.py:1381-1387): the pair
`(int(end_year) if end_year and end_year.isdigit() else 9999,
int(start_year) if start_year and start_year.isdigit() else 0)`,
compared lexicographically, `reverse=True`. -/
def expSortKey (x : SubEntry) : Int × Int :=
  ( match x.end_year with
    | some s => if s ≠ "" ∧ pyIsDigitStr s then (digitsToNat s.data : Int) else 9999
    | none => 9999,
    match x.start_year with
    | some s => if s ≠ "" ∧ pyIsDigitStr s then (digitsToNat s.data : Int) else 0
    | none => 0 )

/-- Lexicographic `≥` on pairs of integers (Python tuple comparison). -/
def lexGe (a b : Int × Int) : Bool :=
  a.1 > b.1 || (a.1 = b.1 && a.2 ≥ b.2)

/-- `_normalize_experience` (src/resume_normalizer.py:1365-1389): normalize
entries, then stable sort descending by `expSortKey` lexicographically. -/
def normalizeExperienceEntries (experience : List SubEntry) : List SubEntry :=
  pySortDescBy (fun a b => lexGe (expSortKey a) (expSortKey b))
    (experience.map normalizeExpEntry)

/-! ## Keyword-argument behavior of the public entry points

CPython binds a call's keyword arguments against the callee's signature: a
keyword naming no parameter raises `TypeError` unless the signature declares a
`**kwargs` catch-all. The signatures below are transcribed from the source;
the three `**kwargs` entry points each emit a non-fatal `UserWarning` for
unexpected keywords and proceed, ignoring them
(src/resume_normalizer.py:646-656, 706-714, 1533-1543). -/

/-- A Python function signature: named parameters and whether it declares
`**kwargs`. -/
structure PySignature where
  params : List String
  hasVarKeyword : Bool
deriving Repr, DecidableEq

/-- Signature of `map_ats_field` (src/ats_field_mapper.py:1198-1204):
no `**kwargs`. -/
def mapAtsFieldSig : PySignature :=
  ⟨["ats_field_name", "resume_data", "selection_strategy", "fuzzy_threshold",
    "explain"], false⟩

/-- Signature of `map_multiple_fields` (src/ats_field_mapper.py:1538-1544):
no `**kwargs`. -/
def mapMultipleFieldsSig : PySignature :=
  ⟨["ats_field_names", "resume_data", "selection_strategy", "fuzzy_threshold",
    "explain"], false⟩

/-- Signature of `normalize_resume` (src/resume_normalizer.py:1464-1471):
declares `**kwargs` and warns on unexpected keywords. -/
def normalizeResumeSig : PySignature :=
  ⟨["raw_resume_data", "role_profile", "normalize_enabled", "skills_as_strings",
    "debug"], true⟩

/-- Signature of `ResumeNormalizer.__init__` (src/resume_normalizer.py:619-626):
declares `**kwargs` and warns on unexpected keywords. -/
def resumeNormalizerInitSig : PySignature :=
  ⟨["role_profile", "normalize_enabled", "skills_as_strings", "debug"], true⟩

/-- Signature of `ResumeNormalizer.normalize` (src/resume_normalizer.py:672):
declares `**kwargs` and warns on unexpected keywords. -/
def resumeNormalizerNormalizeSig : PySignature :=
  ⟨["raw_resume_data"], true⟩

/-- Outcome of supplying one unexpected keyword argument to an entry point. -/
inductive KwCallOutcome where
  | typeError
  | warnAndProceed
  | proceed
deriving DecidableEq, Repr

/-- CPython keyword binding for a call carrying the keyword `kw`: a declared
parameter binds normally; otherwise `**kwargs` absorbs it (all such entry
points here warn and proceed); otherwise `TypeError`. -/
def callWithKeyword (sig : PySignature) (kw : String) : KwCallOutcome :=
  if sig.params.contains kw then .proceed
  else if sig.hasVarKeyword then .warnAndProceed
  else .typeError

/-! ## Supporting lemmas -/

/-- Looking a key up after a dict assignment. -/
theorem lookup_dictInsert (d : List (String × MappingResult)) (k : String)
    (v : MappingResult) (n : String) :
    (dictInsert d k v).lookup n = if n = k then some v else d.lookup n := by
  induction d with
  | nil =>
      by_cases h : n = k
      · subst h; simp [dictInsert, List.lookup]
      · simp only [dictInsert, List.lookup, beq_false_of_ne h, if_neg h]
  | cons kv rest ih =>
      obtain ⟨k0, v0⟩ := kv
      by_cases hk : k0 = k
      · subst hk
        by_cases h : n = k0
        · subst h; simp [dictInsert, List.lookup]
        · simp only [dictInsert, if_pos rfl, List.lookup, beq_false_of_ne h,
            if_neg h]
      · by_cases h : n = k0
        · subst h
          simp only [dictInsert, if_neg hk, List.lookup, beq_self_eq_true,
            if_neg hk]
        · simp only [dictInsert, if_neg hk, List.lookup, beq_false_of_ne h, ih]

/-- Accumulator-generalized lookup characterization of the
`map_multiple_fields` fold. -/
theorem lookup_mapMultipleFields_aux (names : List String) (r : ResumeRecord)
    (s : SelectionStrategy) (t : ℚ) (e : Bool)
    (d : List (String × MappingResult)) (n : String) :
    (names.foldl
      (fun results field_name =>
        match mapAtsField field_name r s t e with
        | some mapping => dictInsert results field_name mapping
        | none => results) d).lookup n =
    if n ∈ names ∧ (mapAtsField n r s t e).isSome
    then mapAtsField n r s t e else d.lookup n := by
  induction names generalizing d with
  | nil => simp
  | cons m rest ih =>
      simp only [List.foldl_cons]
      rcases hm : mapAtsField m r s t e with _ | v
      · rw [ih]
        by_cases hn : n = m
        · subst hn
          simp [hm]
        · simp [List.mem_cons, hn]
      · rw [ih]
        by_cases hmem : n ∈ rest ∧ (mapAtsField n r s t e).isSome
        · simp [hmem, List.mem_cons, hmem.1, hmem.2]
        · rw [if_neg hmem, lookup_dictInsert]
          by_cases hn : n = m
          · subst hn
            simp [hm]
          · simp only [if_neg hn]
            rw [if_neg]
            rintro ⟨hmem', hsome⟩
            rcases List.mem_cons.mp hmem' with h | h
            · exact hn h
            · exact hmem ⟨h, hsome⟩

/-! ## C1 -/

/-- C1: `map_ats_field` is deterministic — two calls with identical arguments
(field name, resume record, selection strategy, threshold, explain flag)
return identical results (both `none` or equal `MappingResult`s). The whole
call graph of `map_ats_field` is embedded above as pure functions of these
five arguments (no randomness, clock, environment, or cross-call mutable
state exists to model), so determinism is definitional. -/
theorem mapAtsField_deterministic (n₁ n₂ : String) (r₁ r₂ : ResumeRecord)
    (s₁ s₂ : SelectionStrategy) (t₁ t₂ : ℚ) (e₁ e₂ : Bool)
    (hn : n₁ = n₂) (hr : r₁ = r₂) (hs : s₁ = s₂) (ht : t₁ = t₂) (he : e₁ = e₂) :
    mapAtsField n₁ r₁ s₁ t₁ e₁ = mapAtsField n₂ r₂ s₂ t₂ e₂ := by
  subst hn hr hs ht he
  rfl

/-- Witness for C1 at concrete arguments. -/
theorem mapAtsField_deterministic_witness :
    ("email" : String) = "email" ∧
    mapAtsField "email" { email := some "a@b.com" } .most_recent (mkRat 7 10) false
      = mapAtsField "email" { email := some "a@b.com" } .most_recent (mkRat 7 10) false :=
  ⟨rfl, mapAtsField_deterministic "email" "email" _ _ .most_recent .most_recent
    (mkRat 7 10) (mkRat 7 10) false false rfl rfl rfl rfl rfl⟩

/-! ## C7 -/

/-- C7: `map_multiple_fields` applies the `map_ats_field` procedure to each
field name in input order and returns a dict keyed by the original names that
contains exactly the successful (non-`None`) mappings — a name maps to a
result in the batch output iff `map_ats_field` succeeds on it, with the very
value `map_ats_field` returns; failing names are silently absent. -/
theorem mapMultipleFields_lookup (names : List String) (r : ResumeRecord)
    (s : SelectionStrategy) (t : ℚ) (e : Bool) (n : String) :
    (mapMultipleFields names r s t e).lookup n =
      if n ∈ names then mapAtsField n r s t e else none := by
  unfold mapMultipleFields
  rw [lookup_mapMultipleFields_aux]
  by_cases hmem : n ∈ names
  · by_cases hsome : (mapAtsField n r s t e).isSome
    · simp [hmem, hsome]
    · simp only [List.lookup_nil, if_pos hmem]
      rw [if_neg (by rintro ⟨_, h⟩; exact hsome h)]
      cases h : mapAtsField n r s t e
      · rfl
      · exact absurd (h ▸ rfl) hsome
  · simp [hmem]

/-! ## C6 -/

/-- C6 counterexample: `map_ats_field` (src/ats_field_mapper.py:1198-1204)
declares no `**kwargs`, so a call with an unexpected keyword argument raises
`TypeError` instead of warning and proceeding — refuting the claim that every
public entry point tolerates unexpected keyword arguments. -/
theorem kwargs_mapAtsField_raises_cex :
    mapAtsFieldSig.params.contains "unexpected_option" = false ∧
    callWithKeyword mapAtsFieldSig "unexpected_option" = .typeError ∧
    callWithKeyword mapAtsFieldSig "unexpected_option" ≠ .warnAndProceed := by
  refine ⟨by decide, by decide, by decide⟩

/-- C6 amended: the resume-normalizer entry points (`normalize_resume`,
`ResumeNormalizer.__init__`, `ResumeNormalizer.normalize`) accept any
unexpected keyword argument, emit a non-fatal `UserWarning` and proceed,
ignoring it; the mapper entry points (`map_ats_field`, `map_multiple_fields`)
declare no `**kwargs`, so an unexpected keyword argument raises `TypeError`. -/
theorem kwargs_entry_point_spec (kw : String) :
    (kw ∉ normalizeResumeSig.params →
      callWithKeyword normalizeResumeSig kw = .warnAndProceed) ∧
    (kw ∉ resumeNormalizerInitSig.params →
      callWithKeyword resumeNormalizerInitSig kw = .warnAndProceed) ∧
    (kw ∉ resumeNormalizerNormalizeSig.params →
      callWithKeyword resumeNormalizerNormalizeSig kw = .warnAndProceed) ∧
    (kw ∉ mapAtsFieldSig.params →
      callWithKeyword mapAtsFieldSig kw = .typeError) ∧
    (kw ∉ mapMultipleFieldsSig.params →
      callWithKeyword mapMultipleFieldsSig kw = .typeError) := by
  refine ⟨fun h => ?_, fun h => ?_, fun h => ?_, fun h => ?_, fun h => ?_⟩ <;>
    simpa [callWithKeyword, normalizeResumeSig, resumeNormalizerInitSig,
      resumeNormalizerNormalizeSig, mapAtsFieldSig, mapMultipleFieldsSig]
      using h

/-- Witness for C6 amended at the concrete keyword `"bogus"`. -/
theorem kwargs_entry_point_spec_witness :
    callWithKeyword normalizeResumeSig "bogus" = .warnAndProceed ∧
    callWithKeyword resumeNormalizerInitSig "bogus" = .warnAndProceed ∧
    callWithKeyword resumeNormalizerNormalizeSig "bogus" = .warnAndProceed ∧
    callWithKeyword mapAtsFieldSig "bogus" = .typeError ∧
    callWithKeyword mapMultipleFieldsSig "bogus" = .typeError :=
  ⟨(kwargs_entry_point_spec "bogus").1 (by decide),
   (kwargs_entry_point_spec "bogus").2.1 (by decide),
   (kwargs_entry_point_spec "bogus").2.2.1 (by decide),
   (kwargs_entry_point_spec "bogus").2.2.2.1 (by decide),
   (kwargs_entry_point_spec "bogus").2.2.2.2 (by decide)⟩

/-! ## C3 -/

/-- A positive blacklist verdict always carries the matched pattern. -/
theorem isFieldBlacklisted_true_pattern (name : String)
    (h : (isFieldBlacklisted name).1 = true) :
    ∃ pat, isFieldBlacklisted name = (true, some pat) := by
  unfold isFieldBlacklisted at h ⊢
  cases hf : FIELD_BLACKLIST_PATTERNS.find?
      (fun p => rsearchStr p.2 (normalizeFieldName name false).1) with
  | none => rw [hf] at h; simp at h
  | some p => exact ⟨p.1, rfl⟩

/-- C3: whenever the (normalized) field name matches a blacklist pattern,
`map_ats_field` returns — for every resume record, strategy, threshold and
explain flag — a structured result with `match_type = "ignored"`,
`value = None`, `canonical_field = None` and a non-null `blacklist_reason`
naming the matched pattern. The result does not depend on the fuzzy matcher
or the resume record at all: the blacklist check is the first step of
`map_ats_field`, strictly before any fuzzy matching. -/
theorem mapAtsField_blacklist_spec (name : String) (r : ResumeRecord)
    (strat : SelectionStrategy) (t : ℚ) (explain : Bool)
    (h : (isFieldBlacklisted name).1 = true) :
    ∃ res pat,
      mapAtsField name r strat t explain = some res ∧
      (isFieldBlacklisted name).2 = some pat ∧
      res.match_type = some "ignored" ∧
      res.value = none ∧
      res.canonical_field = none ∧
      res.blacklist_reason = some ("Field matches blacklist pattern: " ++ pat) := by
  obtain ⟨pat, hpat⟩ := isFieldBlacklisted_true_pattern name h
  cases explain with
  | false =>
      have hmap : mapAtsField name r strat t false = some
          { canonical_field := none, schema_path := none, value := none,
            match_type := some "ignored", confidence := 0, raw_score := 0,
            sensitivity_weight := none, selection_strategy := none,
            selected_index := none, ats_field_name := name,
            normalized_field_name := none,
            canonical_schema_version := CANONICAL_SCHEMA_VERSION,
            blacklist_reason :=
              some ("Field matches blacklist pattern: " ++ pat) } := by
        simp [mapAtsField, hpat]
      exact ⟨_, pat, hmap, by rw [hpat], rfl, rfl, rfl, rfl⟩
  | true =>
      rcases hno : normalizeFieldName name true with ⟨nm, st⟩
      have hmap : mapAtsField name r strat t true = some
          { canonical_field := none, schema_path := none, value := none,
            match_type := some "ignored", confidence := 0, raw_score := 0,
            sensitivity_weight := none, selection_strategy := none,
            selected_index := none, ats_field_name := name,
            normalized_field_name := some nm,
            canonical_schema_version := CANONICAL_SCHEMA_VERSION,
            blacklist_reason :=
              some ("Field matches blacklist pattern: " ++ pat),
            explainability := some (.mapLevel
              { field_name_normalization := some ⟨name, nm, st.getD []⟩,
                field_matching := some ⟨some "ignored", none, none, [], t⟩,
                confidence_calculation := none, selection := none }) } := by
        simp [mapAtsField, hpat, hno]
      exact ⟨_, pat, hmap, by rw [hpat], rfl, rfl, rfl, rfl⟩

/-- Witness for C3 at the concrete blacklisted field name
`"Internal Use Only"` (scenario A). -/
theorem mapAtsField_blacklist_spec_witness :
    ∃ res pat,
      mapAtsField "Internal Use Only" {} .most_recent (mkRat 7 10) false = some res ∧
      (isFieldBlacklisted "Internal Use Only").2 = some pat ∧
      res.match_type = some "ignored" ∧
      res.value = none ∧
      res.canonical_field = none ∧
      res.blacklist_reason = some ("Field matches blacklist pattern: " ++ pat) :=
  mapAtsField_blacklist_spec "Internal Use Only" {} .most_recent (mkRat 7 10)
    false (by decide)

/-! ## C9 -/

/-- Location invariant of the `MOST_RECENT` loop: the returned pair is either
the incoming best or an element of the remaining list at its absolute index. -/
theorem selectMostRecentAux_loc (l : List SubEntry) :
    ∀ idx bi be bestYear,
      selectMostRecentAux l idx bi be bestYear = (bi, be) ∨
      ∃ k e, l.get? k = some e ∧
        selectMostRecentAux l idx bi be bestYear = (idx + k, e) := by
  induction l with
  | nil => intro idx bi be y; exact Or.inl rfl
  | cons e0 rest ih =>
      intro idx bi be y
      simp only [selectMostRecentAux]
      cases hp : parseYear e0.end_year with
      | none => exact Or.inr ⟨0, e0, by simp, by simp⟩
      | some y0 =>
          dsimp only
          by_cases hy : y < y0
          · rw [if_pos hy]
            rcases ih (idx + 1) idx e0 y0 with h | ⟨k, e, hk, he⟩
            · exact Or.inr ⟨0, e0, by simp, by simpa using h⟩
            · refine Or.inr ⟨k + 1, e, by simpa using hk, ?_⟩
              rw [he]; congr 1; omega
          · rw [if_neg hy]
            rcases ih (idx + 1) bi be y with h | ⟨k, e, hk, he⟩
            · exact Or.inl h
            · refine Or.inr ⟨k + 1, e, by simpa using hk, ?_⟩
              rw [he]; congr 1; omega

/-- Location invariant of the `LONGEST` loop, for both the best pair and the
tracked ongoing entry. -/
theorem selectLongestAux_loc (l : List SubEntry) :
    ∀ idx bi be bd ong,
      (((selectLongestAux l idx bi be bd ong).1 = bi ∧
        (selectLongestAux l idx bi be bd ong).2.1 = be) ∨
       ∃ k e, l.get? k = some e ∧
         (selectLongestAux l idx bi be bd ong).1 = idx + k ∧
         (selectLongestAux l idx bi be bd ong).2.1 = e) ∧
      ((selectLongestAux l idx bi be bd ong).2.2.2 = ong ∨
       ∃ k e, l.get? k = some e ∧
         (selectLongestAux l idx bi be bd ong).2.2.2 = some (idx + k, e)) := by
  induction l with
  | nil => intro idx bi be bd ong; exact ⟨Or.inl ⟨rfl, rfl⟩, Or.inl rfl⟩
  | cons e0 rest ih =>
      intro idx bi be bd ong
      simp only [selectLongestAux]
      cases hs : parseYear e0.start_year with
      | none =>
          cases hp : parseYear e0.end_year <;>
          · dsimp only
            obtain ⟨h1, h2⟩ := ih (idx + 1) bi be bd ong
            refine ⟨?_, ?_⟩
            · rcases h1 with h | ⟨k, e, hk, hi, he⟩
              · exact Or.inl h
              · refine Or.inr ⟨k + 1, e, by simpa using hk, ?_, he⟩
                rw [hi]; omega
            · rcases h2 with h | ⟨k, e, hk, ho⟩
              · exact Or.inl h
              · refine Or.inr ⟨k + 1, e, by simpa using hk, ?_⟩
                rw [ho]; congr 2; omega
      | some s0 =>
          cases hp : parseYear e0.end_year with
          | none =>
              dsimp only
              obtain ⟨h1, h2⟩ := ih (idx + 1) bi be bd (some (idx, e0))
              refine ⟨?_, ?_⟩
              · rcases h1 with h | ⟨k, e, hk, hi, he⟩
                · exact Or.inl h
                · refine Or.inr ⟨k + 1, e, by simpa using hk, ?_, he⟩
                  rw [hi]; omega
              · rcases h2 with h | ⟨k, e, hk, ho⟩
                · exact Or.inr ⟨0, e0, by simp, by simpa using h⟩
                · refine Or.inr ⟨k + 1, e, by simpa using hk, ?_⟩
                  rw [ho]; congr 2; omega
          | some en0 =>
              dsimp only
              by_cases hd : en0 - s0 > bd
              · rw [if_pos hd]
                obtain ⟨h1, h2⟩ := ih (idx + 1) idx e0 (en0 - s0) ong
                refine ⟨?_, ?_⟩
                · rcases h1 with ⟨hi, he⟩ | ⟨k, e, hk, hi, he⟩
                  · exact Or.inr ⟨0, e0, by simp, by simpa using hi, he⟩
                  · refine Or.inr ⟨k + 1, e, by simpa using hk, ?_, he⟩
                    rw [hi]; omega
                · rcases h2 with h | ⟨k, e, hk, ho⟩
                  · exact Or.inl h
                  · refine Or.inr ⟨k + 1, e, by simpa using hk, ?_⟩
                    rw [ho]; congr 2; omega
              · rw [if_neg hd]
                obtain ⟨h1, h2⟩ := ih (idx + 1) bi be bd ong
                refine ⟨?_, ?_⟩
                · rcases h1 with h | ⟨k, e, hk, hi, he⟩
                  · exact Or.inl h
                  · refine Or.inr ⟨k + 1, e, by simpa using hk, ?_, he⟩
                    rw [hi]; omega
                · rcases h2 with h | ⟨k, e, hk, ho⟩
                  · exact Or.inl h
                  · refine Or.inr ⟨k + 1, e, by simpa using hk, ?_⟩
                    rw [ho]; congr 2; omega

/-- Location invariant of the `HIGHEST_DEGREE` loop. -/
theorem selectHighestDegreeAux_loc (l : List SubEntry) :
    ∀ idx bi be bl,
      selectHighestDegreeAux l idx bi be bl = (bi, be) ∨
      ∃ k e, l.get? k = some e ∧
        selectHighestDegreeAux l idx bi be bl = (idx + k, e) := by
  induction l with
  | nil => intro idx bi be bl; exact Or.inl rfl
  | cons e0 rest ih =>
      intro idx bi be bl
      simp only [selectHighestDegreeAux]
      by_cases hl : (getDegreeLevel (pyOrStr e0.degree e0.degree_raw) : Int) > bl
      · rw [if_pos hl]
        rcases ih (idx + 1) idx e0 _ with h | ⟨k, e, hk, he⟩
        · exact Or.inr ⟨0, e0, by simp, by simpa using h⟩
        · refine Or.inr ⟨k + 1, e, by simpa using hk, ?_⟩
          rw [he]; congr 1; omega
      · rw [if_neg hl]
        rcases ih (idx + 1) bi be bl with h | ⟨k, e, hk, he⟩
        · exact Or.inl h
        · refine Or.inr ⟨k + 1, e, by simpa using hk, ?_⟩
          rw [he]; congr 1; omega

/-- Location invariant of the project `LONGEST` loop. -/
theorem selectProjectAux_loc (l : List SubEntry) :
    ∀ idx bi be bl,
      selectProjectAux l idx bi be bl = (bi, be) ∨
      ∃ k e, l.get? k = some e ∧
        selectProjectAux l idx bi be bl = (idx + k, e) := by
  induction l with
  | nil => intro idx bi be bl; exact Or.inl rfl
  | cons e0 rest ih =>
      intro idx bi be bl
      simp only [selectProjectAux]
      by_cases hl : (match e0.description with
        | some d => (d.length : Int)
        | none => 0) > bl
      · rw [if_pos hl]
        rcases ih (idx + 1) idx e0 _ with h | ⟨k, e, hk, he⟩
        · exact Or.inr ⟨0, e0, by simp, by simpa using h⟩
        · refine Or.inr ⟨k + 1, e, by simpa using hk, ?_⟩
          rw [he]; congr 1; omega
      · rw [if_neg hl]
        rcases ih (idx + 1) bi be bl with h | ⟨k, e, hk, he⟩
        · exact Or.inl h
        · refine Or.inr ⟨k + 1, e, by simpa using hk, ?_⟩
          rw [he]; congr 1; omega

/-- Bound from a successful indexed access. -/
theorem lt_length_of_get?_eq_some {l : List SubEntry} {n : Nat} {a : SubEntry}
    (h : l.get? n = some a) : n < l.length := by
  rcases List.get?_eq_some.mp h with ⟨hlt, _⟩
  exact hlt

/-- The `MOST_RECENT` selection on a nonempty list is a valid index/entry. -/
theorem selectMostRecentEntry_total (e0 : SubEntry) (rest : List SubEntry) :
    ∃ i e, selectMostRecentEntry (e0 :: rest) = (some i, some e) ∧
      i < (e0 :: rest).length ∧ (e0 :: rest).get? i = some e := by
  simp only [selectMostRecentEntry]
  cases hp : parseYear e0.end_year with
  | none => exact ⟨0, e0, rfl, by simp, by simp⟩
  | some y0 =>
      dsimp only
      rcases selectMostRecentAux_loc rest 1 0 e0 y0 with h | ⟨k, e, hk, he⟩
      · rw [h]
        exact ⟨0, e0, rfl, by simp, by simp⟩
      · rw [he]
        refine ⟨1 + k, e, rfl, ?_, ?_⟩
        · have hb := lt_length_of_get?_eq_some hk
          simp only [List.length_cons]
          omega
        · rw [show 1 + k = k + 1 from by omega]
          simpa using hk

/-- The `LONGEST` selection on a nonempty list is a valid index/entry. -/
theorem selectLongestEntry_total (e0 : SubEntry) (rest : List SubEntry) :
    ∃ i e, selectLongestEntry (e0 :: rest) = (some i, some e) ∧
      i < (e0 :: rest).length ∧ (e0 :: rest).get? i = some e := by
  simp only [selectLongestEntry]
  obtain ⟨h1, h2⟩ := selectLongestAux_loc (e0 :: rest) 0 0 e0 (-1) none
  rcases haux : selectLongestAux (e0 :: rest) 0 0 e0 (-1) none with ⟨bi, be, bd, ong⟩
  rw [haux] at h1 h2
  dsimp only at h1 h2
  have hbe : (e0 :: rest).get? bi = some be := by
    rcases h1 with ⟨hbi, hbev⟩ | ⟨k, e, hk, hbi, hbev⟩
    · subst hbi; subst hbev; simp
    · subst hbev
      rw [hbi]
      simpa using hk
  dsimp only
  by_cases hbd : bd ≥ (0 : Int)
  · rw [if_pos hbd]
    exact ⟨bi, be, rfl, lt_length_of_get?_eq_some hbe, hbe⟩
  · rw [if_neg hbd]
    rcases h2 with ho | ⟨k, e, hk, ho⟩
    · rw [ho]
      exact ⟨0, e0, rfl, by simp, by simp⟩
    · rw [ho]
      exact ⟨0 + k, e, rfl,
        by simpa using lt_length_of_get?_eq_some hk, by simpa using hk⟩

/-- The `HIGHEST_DEGREE` education selection on a nonempty list is a valid
index/entry. -/
theorem selectHighestDegree_total (e0 : SubEntry) (rest : List SubEntry) :
    ∃ i e,
      ((some (selectHighestDegreeAux (e0 :: rest) 0 0 e0 (-1)).1,
        some (selectHighestDegreeAux (e0 :: rest) 0 0 e0 (-1)).2) :
          Option Nat × Option SubEntry) = (some i, some e) ∧
      i < (e0 :: rest).length ∧ (e0 :: rest).get? i = some e := by
  rcases selectHighestDegreeAux_loc (e0 :: rest) 0 0 e0 (-1) with h | ⟨k, e, hk, he⟩
  · rw [h]
    exact ⟨0, e0, rfl, by simp, by simp⟩
  · rw [he]
    exact ⟨0 + k, e, rfl,
      by simpa using lt_length_of_get?_eq_some hk, by simpa using hk⟩

/-- The project `LONGEST` selection on a nonempty list is a valid
index/entry. -/
theorem selectProjectLongest_total (e0 : SubEntry) (rest : List SubEntry) :
    ∃ i e,
      ((some (selectProjectAux (e0 :: rest) 0 0 e0 (-1)).1,
        some (selectProjectAux (e0 :: rest) 0 0 e0 (-1)).2) :
          Option Nat × Option SubEntry) = (some i, some e) ∧
      i < (e0 :: rest).length ∧ (e0 :: rest).get? i = some e := by
  rcases selectProjectAux_loc (e0 :: rest) 0 0 e0 (-1) with h | ⟨k, e, hk, he⟩
  · rw [h]
    exact ⟨0, e0, rfl, by simp, by simp⟩
  · rw [he]
    exact ⟨0 + k, e, rfl,
      by simpa using lt_length_of_get?_eq_some hk, by simpa using hk⟩

/-- C9: selector totality — for every selection strategy, each of the three
entry selectors returns `(None, None)` on an empty list, and on a nonempty
list returns `(index, entry)` with `0 ≤ index < length` and `entry` equal to
the list element at that index, never any other outcome. -/
theorem selector_totality (strategy : SelectionStrategy) (l : List SubEntry) :
    (l = [] →
      selectEducationEntry l strategy = (none, none) ∧
      selectExperienceEntry l strategy = (none, none) ∧
      selectProjectEntry l strategy = (none, none)) ∧
    (l ≠ [] →
      (∃ i e, selectEducationEntry l strategy = (some i, some e) ∧
        i < l.length ∧ l.get? i = some e) ∧
      (∃ i e, selectExperienceEntry l strategy = (some i, some e) ∧
        i < l.length ∧ l.get? i = some e) ∧
      (∃ i e, selectProjectEntry l strategy = (some i, some e) ∧
        i < l.length ∧ l.get? i = some e)) := by
  constructor
  · rintro rfl
    refine ⟨?_, ?_, ?_⟩ <;> cases strategy <;> rfl
  · intro h
    obtain ⟨e0, rest, rfl⟩ := List.exists_cons_of_ne_nil h
    refine ⟨?_, ?_, ?_⟩
    · cases strategy with
      | most_recent =>
          simp only [selectEducationEntry]
          exact selectMostRecentEntry_total e0 rest
      | longest =>
          simp only [selectEducationEntry]
          exact selectLongestEntry_total e0 rest
      | highest_degree =>
          simp only [selectEducationEntry]
          exact selectHighestDegree_total e0 rest
    · cases strategy with
      | most_recent =>
          simp only [selectExperienceEntry]
          exact selectMostRecentEntry_total e0 rest
      | longest =>
          simp only [selectExperienceEntry]
          exact selectLongestEntry_total e0 rest
      | highest_degree =>
          simp only [selectExperienceEntry]
          exact selectMostRecentEntry_total e0 rest
    · cases strategy with
      | most_recent =>
          exact ⟨0, e0, rfl, by simp, by simp⟩
      | longest =>
          simp only [selectProjectEntry]
          exact selectProjectLongest_total e0 rest
      | highest_degree =>
          exact ⟨0, e0, rfl, by simp, by simp⟩

/-- Witness for C9: a concrete nonempty list under `MOST_RECENT`, and the
concrete empty list under `LONGEST`. -/
theorem selector_totality_witness :
    (∃ i e,
      selectEducationEntry [{ degree := some "BS" }] .most_recent = (some i, some e) ∧
      i < ([{ degree := some "BS" }] : List SubEntry).length ∧
      ([{ degree := some "BS" }] : List SubEntry).get? i = some e) ∧
    selectProjectEntry [] .longest = (none, none) :=
  ⟨((selector_totality .most_recent [{ degree := some "BS" }]).2
      (by simp)).1,
   ((selector_totality .longest []).1 rfl).2.2⟩

/-! ## C8 -/

/-- Early-return behavior of the `MOST_RECENT` loop: the first entry whose
end-year parses to `None` is returned immediately, at its absolute index. -/
theorem selectMostRecentAux_first_none (pre : List SubEntry) :
    ∀ (idx bi : Nat) (be : SubEntry) (y : Int) (e : SubEntry)
      (post : List SubEntry),
      (∀ p ∈ pre, (parseYear p.end_year).isSome) →
      parseYear e.end_year = none →
      selectMostRecentAux (pre ++ e :: post) idx bi be y =
        (idx + pre.length, e) := by
  induction pre with
  | nil =>
      intro idx bi be y e post _ he
      simp only [List.nil_append, selectMostRecentAux, he]
      simp
  | cons p pre ih =>
      intro idx bi be y e post hpre he
      have hp := hpre p (by simp)
      rcases hsome : parseYear p.end_year with _ | yp
      · rw [hsome] at hp; simp at hp
      · simp only [List.cons_append, selectMostRecentAux, hsome]
        have hpre' : ∀ q ∈ pre, (parseYear q.end_year).isSome :=
          fun q hq => hpre q (by simp [hq])
        by_cases hy : y < yp
        · rw [if_pos hy]
          show selectMostRecentAux (pre ++ e :: post) (idx + 1) idx p yp =
            (idx + (p :: pre).length, e)
          rw [ih (idx + 1) idx p yp e post hpre' he, List.length_cons]
          congr 1
          omega
        · rw [if_neg hy]
          show selectMostRecentAux (pre ++ e :: post) (idx + 1) bi be y =
            (idx + (p :: pre).length, e)
          rw [ih (idx + 1) bi be y e post hpre' he, List.length_cons]
          congr 1
          omega

/-- Running-maximum behavior of the `MOST_RECENT` loop when every remaining
entry has a parseable end-year: either nothing beats the incoming best and
the loop returns it, or the loop returns the first entry achieving the
maximum year, which strictly exceeds the incoming best. -/
theorem selectMostRecentAux_all_some (l : List SubEntry) :
    ∀ (idx bi : Nat) (be : SubEntry) (by0 : Int),
      (∀ e ∈ l, (parseYear e.end_year).isSome) →
      ((∀ e ∈ l, ∀ ye, parseYear e.end_year = some ye → ye ≤ by0) ∧
         selectMostRecentAux l idx bi be by0 = (bi, be)) ∨
      (∃ k e ye, l.get? k = some e ∧ parseYear e.end_year = some ye ∧
         selectMostRecentAux l idx bi be by0 = (idx + k, e) ∧ by0 < ye ∧
         (∀ m em ym, m < k → l.get? m = some em →
            parseYear em.end_year = some ym → ym < ye) ∧
         (∀ em ∈ l, ∀ ym, parseYear em.end_year = some ym → ym ≤ ye)) := by
  induction l with
  | nil =>
      intro idx bi be by0 _
      exact Or.inl ⟨by simp, rfl⟩
  | cons e0 rest ih =>
      intro idx bi be by0 hall
      have h0 := hall e0 (by simp)
      rcases hy0 : parseYear e0.end_year with _ | y0
      · rw [hy0] at h0; simp at h0
      have hrest : ∀ e ∈ rest, (parseYear e.end_year).isSome :=
        fun e he => hall e (by simp [he])
      simp only [selectMostRecentAux, hy0]
      by_cases hlt : by0 < y0
      · rw [if_pos hlt]
        rcases ih (idx + 1) idx e0 y0 hrest with
          ⟨hle, heq⟩ | ⟨k, e, ye, hk, hye, heq, hgt, hbefore, hmax⟩
        · refine Or.inr ⟨0, e0, y0, by simp, hy0, by rw [heq]; simp, hlt, ?_, ?_⟩
          · intro m em ym hm _ _
            exact absurd hm (Nat.not_lt_zero m)
          · intro em hem ym hym
            rcases List.mem_cons.mp hem with rfl | hmem
            · rw [hy0] at hym
              cases hym
              exact le_refl _
            · exact hle em hmem ym hym
        · refine Or.inr ⟨k + 1, e, ye, by simpa using hk, hye, ?_, by omega,
            ?_, ?_⟩
          · rw [heq]; congr 1; omega
          · intro m em ym hm hgm hym
            cases m with
            | zero =>
                simp only [List.get?_cons_zero] at hgm
                cases hgm
                rw [hy0] at hym
                cases hym
                exact hgt
            | succ m' =>
                exact hbefore m' em ym (by omega) (by simpa using hgm) hym
          · intro em hem ym hym
            rcases List.mem_cons.mp hem with rfl | hmem
            · rw [hy0] at hym
              cases hym
              exact le_of_lt hgt
            · exact hmax em hmem ym hym
      · rw [if_neg hlt]
        have hy0le : y0 ≤ by0 := by omega
        rcases ih (idx + 1) bi be by0 hrest with
          ⟨hle, heq⟩ | ⟨k, e, ye, hk, hye, heq, hgt, hbefore, hmax⟩
        · refine Or.inl ⟨?_, by rw [heq]⟩
          intro em hem ym hym
          rcases List.mem_cons.mp hem with rfl | hmem
          · rw [hy0] at hym
            cases hym
            exact hy0le
          · exact hle em hmem ym hym
        · refine Or.inr ⟨k + 1, e, ye, by simpa using hk, hye, ?_, hgt, ?_, ?_⟩
          · rw [heq]; congr 1; omega
          · intro m em ym hm hgm hym
            cases m with
            | zero =>
                simp only [List.get?_cons_zero] at hgm
                cases hgm
                rw [hy0] at hym
                cases hym
                omega
            | succ m' =>
                exact hbefore m' em ym (by omega) (by simpa using hgm) hym
          · intro em hem ym hym
            rcases List.mem_cons.mp hem with rfl | hmem
            · rw [hy0] at hym
              cases hym
              omega
            · exact hmax em hmem ym hym

/-- C8: under `MOST_RECENT` (for both the education and the experience
selector, whose loops are identical): the first entry whose end-year parses
as `None` is selected immediately, at its index, winning over every dated
entry; and when every entry has a parseable end-year, the entry with the
numerically largest year is selected, the first occurrence winning ties. -/
theorem selectMostRecent_spec (l : List SubEntry) :
    (∀ (pre : List SubEntry) (e : SubEntry) (post : List SubEntry),
       l = pre ++ e :: post →
       (∀ p ∈ pre, (parseYear p.end_year).isSome) →
       parseYear e.end_year = none →
       selectEducationEntry l .most_recent = (some pre.length, some e) ∧
       selectExperienceEntry l .most_recent = (some pre.length, some e)) ∧
    ((∀ e ∈ l, (parseYear e.end_year).isSome) → l ≠ [] →
       ∃ i e y, selectEducationEntry l .most_recent = (some i, some e) ∧
         selectExperienceEntry l .most_recent = (some i, some e) ∧
         l.get? i = some e ∧ parseYear e.end_year = some y ∧
         (∀ j ej yj, l.get? j = some ej →
            parseYear ej.end_year = some yj → yj ≤ y) ∧
         (∀ j ej yj, j < i → l.get? j = some ej →
            parseYear ej.end_year = some yj → yj < y)) := by
  have hsel : ∀ (res : Option Nat × Option SubEntry),
      l ≠ [] → selectMostRecentEntry l = res →
      selectEducationEntry l .most_recent = res ∧
      selectExperienceEntry l .most_recent = res := by
    intro res hne hres
    cases l with
    | nil => exact absurd rfl hne
    | cons a rest =>
        exact ⟨hres, hres⟩
  constructor
  · intro pre e post hsplit hpre he
    subst hsplit
    have hne : pre ++ e :: post ≠ [] := by simp
    cases pre with
    | nil =>
        refine hsel _ hne ?_
        simp only [List.nil_append, selectMostRecentEntry, he, List.length_nil]
    | cons p pre' =>
        have hp := hpre p (by simp)
        rcases hsome : parseYear p.end_year with _ | yp
        · rw [hsome] at hp; simp at hp
        refine hsel _ hne ?_
        simp only [List.cons_append, selectMostRecentEntry, hsome]
        show (fun p =>
            ((some p.1, some p.2) : Option Nat × Option SubEntry))
          (selectMostRecentAux (pre' ++ e :: post) 1 0 p yp) = _
        rw [selectMostRecentAux_first_none pre' 1 0 p yp e post
          (fun q hq => hpre q (by simp [hq])) he, List.length_cons]
        simp only []
        congr 2
        omega
  · intro hall hne
    cases l with
    | nil => exact absurd rfl hne
    | cons e0 rest =>
        have h0 := hall e0 (by simp)
        rcases hy0 : parseYear e0.end_year with _ | y0
        · rw [hy0] at h0; simp at h0
        have hrest : ∀ e ∈ rest, (parseYear e.end_year).isSome :=
          fun e he => hall e (by simp [he])
        rcases selectMostRecentAux_all_some rest 1 0 e0 y0 hrest with
          ⟨hle, heq⟩ | ⟨k, e, ye, hk, hye, heq, hgt, hbefore, hmax⟩
        · have hres : selectMostRecentEntry (e0 :: rest) = (some 0, some e0) := by
            simp only [selectMostRecentEntry, hy0]
            rw [heq]
          obtain ⟨hedu, hexp⟩ := hsel _ hne hres
          refine ⟨0, e0, y0, hedu, hexp, by simp, hy0, ?_, ?_⟩
          · intro j ej yj hgj hyj
            cases j with
            | zero =>
                simp only [List.get?_cons_zero] at hgj
                cases hgj
                rw [hy0] at hyj
                cases hyj
                exact le_refl _
            | succ j' =>
                exact hle ej (List.get?_mem (by simpa using hgj)) yj hyj
          · intro j ej yj hj _ _
            exact absurd hj (Nat.not_lt_zero j)
        · have hres : selectMostRecentEntry (e0 :: rest) =
              (some (1 + k), some e) := by
            simp only [selectMostRecentEntry, hy0]
            rw [heq]
          obtain ⟨hedu, hexp⟩ := hsel _ hne hres
          refine ⟨1 + k, e, ye, hedu, hexp, ?_, hye, ?_, ?_⟩
          · rw [show 1 + k = k + 1 from by omega]
            simpa using hk
          · intro j ej yj hgj hyj
            cases j with
            | zero =>
                simp only [List.get?_cons_zero] at hgj
                cases hgj
                rw [hy0] at hyj
                cases hyj
                exact le_of_lt hgt
            | succ j' =>
                exact hmax ej (List.get?_mem (by simpa using hgj)) yj hyj
          · intro j ej yj hj hgj hyj
            cases j with
            | zero =>
                simp only [List.get?_cons_zero] at hgj
                cases hgj
                rw [hy0] at hyj
                cases hyj
                exact hgt
            | succ j' =>
                exact hbefore j' ej yj (by omega) (by simpa using hgj) hyj

/-- Witness for C8: scenario D — education list
`[{degree: BS, end_year: 2020}, {degree: MS, end_year: 2022},
{degree: PhD, end_year: None}]` selects index 2 under `MOST_RECENT` (for
both selectors). -/
theorem selectMostRecent_spec_witness :
    selectEducationEntry
        [{ degree := some "BS", end_year := some "2020" },
         { degree := some "MS", end_year := some "2022" },
         { degree := some "PhD", end_year := none }] .most_recent =
      (some 2, some { degree := some "PhD", end_year := none }) ∧
    selectExperienceEntry
        [{ degree := some "BS", end_year := some "2020" },
         { degree := some "MS", end_year := some "2022" },
         { degree := some "PhD", end_year := none }] .most_recent =
      (some 2, some { degree := some "PhD", end_year := none }) := by
  have h := (selectMostRecent_spec
      [{ degree := some "BS", end_year := some "2020" },
       { degree := some "MS", end_year := some "2022" },
       { degree := some "PhD", end_year := none }]).1
    [{ degree := some "BS", end_year := some "2020" },
     { degree := some "MS", end_year := some "2022" }]
    { degree := some "PhD", end_year := none } [] rfl (by decide) rfl
  exact h

/-! ## C10 -/

/-- C10: asymmetric treatment of missing values by field kind. For a scalar
canonical field — here `email`, an exact synonym of itself — whose value is
absent (`None`) in the resume record, `map_ats_field` still returns a full
`MappingResult` whose `value` is `None`; but for a category field — here
`education.degree` via its exact synonym `"degree"` — when the selector
picks an entry (list nonempty) whose requested sub-field is `None`, the call
returns `None`, exactly as if no entry existed. -/
theorem mapAtsField_missing_value_asymmetry :
    (∀ (r : ResumeRecord) (strat : SelectionStrategy) (t : ℚ),
       r.email = none →
       mapAtsField "email" r strat t false = some
         { canonical_field := some "email", schema_path := some "email",
           value := none, match_type := some "exact", confidence := 1,
           raw_score := 1, sensitivity_weight := some (mkRat 1 2),
           selection_strategy := some strat.value, selected_index := none,
           ats_field_name := "email", normalized_field_name := none,
           canonical_schema_version := CANONICAL_SCHEMA_VERSION }) ∧
    (∀ (r : ResumeRecord) (strat : SelectionStrategy) (t : ℚ)
       (i : Nat) (e : SubEntry),
       selectEducationEntry r.education strat = (some i, some e) →
       e.degree = none →
       mapAtsField "degree" r strat t false = none) := by
  constructor
  · intro r strat t h
    rcases r with ⟨nm, em, ph, ed, ex, pr, sk⟩
    simp only at h
    subst h
    rfl
  · intro r strat t i e hsel hdeg
    have hbl : isFieldBlacklisted "degree" = (false, none) := by decide
    have hfm : fuzzyMatchField "degree" t false =
        (some CanonicalField.education_degree, 1, none) := rfl
    have hpath : mapFieldToSchemaPath .education_degree r strat =
        (some ("education[" ++ toString i ++ "].degree"), none) := by
      simp only [mapFieldToSchemaPath, hsel, hdeg, Option.map_none']
    simp only [mapAtsField, hbl, hfm, hpath]
    rfl

/-- Witness for C10 at a concrete resume: email absent, and an education
entry with a `None` degree. -/
theorem mapAtsField_missing_value_asymmetry_witness :
    mapAtsField "email"
        { education := [{ institution := some "MIT", end_year := some "2020" }] }
        .most_recent (mkRat 7 10) false = some
      { canonical_field := some "email", schema_path := some "email",
        value := none, match_type := some "exact", confidence := 1,
        raw_score := 1, sensitivity_weight := some (mkRat 1 2),
        selection_strategy := some "most_recent", selected_index := none,
        ats_field_name := "email", normalized_field_name := none,
        canonical_schema_version := CANONICAL_SCHEMA_VERSION } ∧
    mapAtsField "degree"
        { education := [{ institution := some "MIT", end_year := some "2020" }] }
        .most_recent (mkRat 7 10) false = none :=
  ⟨mapAtsField_missing_value_asymmetry.1
      { education := [{ institution := some "MIT", end_year := some "2020" }] }
      .most_recent (mkRat 7 10) rfl,
   mapAtsField_missing_value_asymmetry.2
      { education := [{ institution := some "MIT", end_year := some "2020" }] }
      .most_recent (mkRat 7 10) 0
      { institution := some "MIT", end_year := some "2020" }
      (by decide) rfl⟩

/-! ## C2 -/

/-- For a non-category canonical field the schema-path resolver always
produces a concrete path. -/
theorem mapFieldToSchemaPath_scalar_path (cf : CanonicalField)
    (r : ResumeRecord) (strat : SelectionStrategy)
    (h : categoryOf cf = none) :
    ∃ p, (mapFieldToSchemaPath cf r strat).1 = some p := by
  cases cf <;> first
    | exact ⟨_, rfl⟩
    | exact absurd h (by decide)

set_option maxHeartbeats 3200000 in
/-- C2: confidence arithmetic and the acceptance gate of `map_ats_field`.
Part 1: every returned result that resolves a canonical field has
`confidence = 1.0` when `match_type = "exact"` (regardless of sensitivity
weight), and `confidence = raw_score * sensitivity_weight` of the resolved
field when `match_type = "fuzzy"`, with any result carrying a schema path
satisfying `threshold ≤ confidence`. Part 2: for a fuzzy (non-exact) match,
the gate rejects exactly below the threshold — strictly below yields `None`,
and `threshold ≤ confidence` (equality included) passes the gate, producing
for scalar fields a returned fuzzy result with a schema path. -/
theorem mapAtsField_confidence_spec :
    (∀ (name : String) (r : ResumeRecord) (strat : SelectionStrategy)
       (t : ℚ) (explain : Bool) (res : MappingResult),
       mapAtsField name r strat t explain = some res →
       res.canonical_field ≠ none →
       (res.match_type = some "exact" → res.confidence = 1) ∧
       (res.match_type = some "fuzzy" →
         ∃ cf : CanonicalField, res.canonical_field = some cf.value ∧
           res.sensitivity_weight = some (fieldWeight cf) ∧
           res.confidence = res.raw_score * fieldWeight cf ∧
           (res.schema_path ≠ none → t ≤ res.confidence))) ∧
    (∀ (name : String) (r : ResumeRecord) (strat : SelectionStrategy)
       (t : ℚ) (cf : CanonicalField) (raw : ℚ) (ex : Option FuzzyExplain),
       (isFieldBlacklisted name).1 = false →
       fuzzyMatchField name t false = (some cf, raw, ex) →
       raw ≠ 1 →
       ((raw * fieldWeight cf < t → mapAtsField name r strat t false = none) ∧
        (t ≤ raw * fieldWeight cf → categoryOf cf = none →
          ∃ res, mapAtsField name r strat t false = some res ∧
            res.match_type = some "fuzzy" ∧
            res.confidence = raw * fieldWeight cf ∧
            res.schema_path ≠ none))) := by
  have hfe : ¬ ("fuzzy" : String) = "exact" := by decide
  have hef : ¬ ("exact" : String) = "fuzzy" := by decide
  constructor
  · intro name r strat t explain res h hcf
    rcases hblE : isFieldBlacklisted name with ⟨b, patOpt⟩
    cases b
    · rcases hfm : fuzzyMatchField name t explain with ⟨cfOpt, raw, ex⟩
      cases cfOpt with
      | none =>
          simp only [mapAtsField, hblE, hfm] at h
          cases explain
          · exact absurd h.symm (by simp)
          · rw [if_pos (by trivial)] at h
            injection h with h
            subst h
            exact absurd rfl hcf
      | some cf =>
          simp only [mapAtsField, hblE, hfm] at h
          by_cases hraw : raw = 1
          · simp only [if_pos hraw] at h
            rw [if_neg (fun hand => hef hand.1)] at h
            rcases hmp : mapFieldToSchemaPath cf r strat with ⟨pathOpt, valOpt⟩
            simp only [hmp] at h
            by_cases hguard : (pathOpt = none ∨ valOpt = none) ∧
                (categoryOf cf).isSome
            · rw [if_pos hguard] at h
              exact absurd h.symm (by simp)
            · rw [if_neg hguard] at h
              injection h with h
              subst h
              constructor
              · intro _
                simp
              · intro hft
                simp at hft
          · simp only [if_neg hraw, if_neg hfe] at h
            by_cases hconf : qMul raw (fieldWeight cf) < t
            · rw [if_pos ⟨trivial, hconf⟩] at h
              cases explain
              · exact absurd h.symm (by simp)
              · rw [if_pos (by trivial)] at h
                injection h with h
                subst h
                refine ⟨fun hx => absurd hx (by simp [hef]), fun _ =>
                  ⟨cf, rfl, rfl, ?_, ?_⟩⟩
                · simp [qMul_eq_mul]
                · intro hsp
                  exact absurd rfl hsp
            · rw [if_neg (fun hand => hconf hand.2)] at h
              rcases hmp : mapFieldToSchemaPath cf r strat with ⟨pathOpt, valOpt⟩
              simp only [hmp] at h
              by_cases hguard : (pathOpt = none ∨ valOpt = none) ∧
                  (categoryOf cf).isSome
              · rw [if_pos hguard] at h
                exact absurd h.symm (by simp)
              · rw [if_neg hguard] at h
                injection h with h
                subst h
                refine ⟨fun hx => absurd hx (by simp [hef]), fun _ =>
                  ⟨cf, rfl, rfl, ?_, ?_⟩⟩
                · simp [qMul_eq_mul]
                · intro _
                  rw [qMul_eq_mul] at hconf ⊢
                  exact not_lt.mp hconf
    · simp only [mapAtsField, hblE] at h
      cases explain
      · rw [if_neg (by simp)] at h
        injection h with h
        subst h
        exact absurd rfl hcf
      · rcases hno : normalizeFieldName name true with ⟨nm, st⟩
        simp only [hno] at h
        rw [if_pos (by trivial)] at h
        injection h with h
        subst h
        exact absurd rfl hcf
  · intro name r strat t cf raw ex hbl hfm hraw
    rcases hblE : isFieldBlacklisted name with ⟨b, patOpt⟩
    rw [hblE] at hbl
    simp only at hbl
    subst hbl
    constructor
    · intro hlt
      simp only [mapAtsField, hblE, hfm, if_neg hraw, if_neg hfe]
      rw [if_pos ⟨trivial, by rw [qMul_eq_mul]; exact hlt⟩]
      rfl
    · intro hge hcat
      obtain ⟨p, hp⟩ := mapFieldToSchemaPath_scalar_path cf r strat hcat
      simp only [mapAtsField, hblE, hfm, if_neg hraw, if_neg hfe]
      rw [if_neg (fun hand =>
        absurd hand.2 (not_lt.mpr (by rw [qMul_eq_mul]; exact hge)))]
      rcases hmp : mapFieldToSchemaPath cf r strat with ⟨pathOpt, valOpt⟩
      rw [hmp] at hp
      simp only at hp
      simp only [hmp]
      rw [if_neg (by simp [hcat])]
      refine ⟨_, rfl, rfl, by simp [qMul_eq_mul], ?_⟩
      simp only [hp]
      simp

set_option maxRecDepth 100000 in
/-- Witness for C2: the exact match `"email"` has confidence 1.0, and the
fuzzy candidate `"emial"` (raw score 0.8 against the CRITICAL-weighted
`email`, confidence 0.4) is rejected at the default threshold 0.7
(scenario C's asymmetric caution). -/
theorem mapAtsField_confidence_spec_witness :
    ((mapAtsField "email" { email := some "a@b.com" } .most_recent (mkRat 7 10)
        false).map (fun res => res.confidence) = some 1) ∧
    mapAtsField "emial" {} .most_recent (mkRat 7 10) false = none := by
  constructor
  · have hEq : mapAtsField "email" { email := some "a@b.com" } .most_recent
        (mkRat 7 10) false = some
        { canonical_field := some "email", schema_path := some "email",
          value := some (.str "a@b.com"), match_type := some "exact",
          confidence := 1, raw_score := 1,
          sensitivity_weight := some (mkRat 1 2),
          selection_strategy := some "most_recent", selected_index := none,
          ats_field_name := "email", normalized_field_name := none,
          canonical_schema_version := CANONICAL_SCHEMA_VERSION } := by decide
    have hc := (mapAtsField_confidence_spec.1 "email"
        { email := some "a@b.com" } .most_recent (mkRat 7 10) false _ hEq
        (by decide)).1 (by decide)
    rw [hEq]
    exact congrArg some hc
  · exact (mapAtsField_confidence_spec.2 "emial" {} .most_recent (mkRat 7 10)
      CanonicalField.email (mkRat 4 5) none (by decide) (by decide)
      (by decide)).1 (by rw [← qMul_eq_mul]; decide)

/-! ## Generic properties of the stable descending insertion sort
(`pySortDescBy`), the lexicographic key order, and year validation — shared
infrastructure for the chronological-sort theorem. -/

/-- Every insertion is a permutation: inserting `x` yields `x :: l` up to
order. -/
theorem pyInsertDescBy_perm (ge : α → α → Bool) (x : α) (l : List α) :
    (pyInsertDescBy ge x l).Perm (x :: l) := by
  induction l with
  | nil => simp [pyInsertDescBy]
  | cons y ys ih =>
      simp only [pyInsertDescBy]
      split
      · exact (ih.cons y).trans (List.Perm.swap x y ys)
      · exact List.Perm.refl _

/-- The sort is a permutation of its input (Python `list.sort` reorders in
place, never dropping or duplicating entries). -/
theorem pySortDescBy_perm (ge : α → α → Bool) (l : List α) :
    (pySortDescBy ge l).Perm l := by
  suffices h : ∀ (l acc : List α),
      (l.foldl (fun acc x => pyInsertDescBy ge x acc) acc).Perm (acc ++ l) by
    simpa [pySortDescBy] using h l []
  intro l
  induction l with
  | nil => intro acc; simp
  | cons x xs ih =>
      intro acc
      simp only [List.foldl_cons]
      refine (ih (pyInsertDescBy ge x acc)).trans ?_
      refine (List.Perm.append_right xs (pyInsertDescBy_perm ge x acc)).trans ?_
      exact List.perm_middle.symm

/-- Insertion preserves sortedness when the comparator is total and
transitive. -/
theorem pyInsertDescBy_pairwise (ge : α → α → Bool)
    (htot : ∀ a b, ge a b = false → ge b a = true)
    (htrans : ∀ a b c, ge a b = true → ge b c = true → ge a c = true)
    (x : α) (l : List α) (hl : l.Pairwise (fun a b => ge a b = true)) :
    (pyInsertDescBy ge x l).Pairwise (fun a b => ge a b = true) := by
  induction l with
  | nil => simp [pyInsertDescBy]
  | cons y ys ih =>
      rw [List.pairwise_cons] at hl
      obtain ⟨hy, hys⟩ := hl
      simp only [pyInsertDescBy]
      by_cases hge : ge y x = true
      · rw [if_pos hge, List.pairwise_cons]
        refine ⟨?_, ih hys⟩
        intro b hb
        rcases List.mem_cons.mp ((pyInsertDescBy_perm ge x ys).mem_iff.mp hb) with
          rfl | hbys
        · exact hge
        · exact hy b hbys
      · rw [if_neg hge, List.pairwise_cons]
        have hxy : ge x y = true := by
          cases hyx : ge y x with
          | true => exact absurd hyx hge
          | false => exact htot y x hyx
        refine ⟨?_, List.Pairwise.cons hy hys⟩
        intro b hb
        rcases List.mem_cons.mp hb with rfl | hbys
        · exact hxy
        · exact htrans x y b hxy (hy b hbys)

/-- The sort output is pairwise `ge`-descending when the comparator is total
and transitive. -/
theorem pySortDescBy_pairwise (ge : α → α → Bool)
    (htot : ∀ a b, ge a b = false → ge b a = true)
    (htrans : ∀ a b c, ge a b = true → ge b c = true → ge a c = true)
    (l : List α) :
    (pySortDescBy ge l).Pairwise (fun a b => ge a b = true) := by
  suffices h : ∀ (l acc : List α), acc.Pairwise (fun a b => ge a b = true) →
      (l.foldl (fun acc x => pyInsertDescBy ge x acc) acc).Pairwise
        (fun a b => ge a b = true) from h l [] List.Pairwise.nil
  intro l
  induction l with
  | nil => intro acc hacc; simpa using hacc
  | cons x xs ih =>
      intro acc hacc
      simp only [List.foldl_cons]
      exact ih _ (pyInsertDescBy_pairwise ge htot htrans x acc hacc)

/-- Python tuple `≥` is total. -/
theorem lexGe_total (a b : Int × Int) (h : lexGe a b = false) :
    lexGe b a = true := by
  simp only [lexGe, Bool.or_eq_true, Bool.and_eq_true, decide_eq_true_eq,
    Bool.or_eq_false_iff, Bool.and_eq_false_iff, decide_eq_false_iff_not] at *
  omega

/-- Python tuple `≥` is transitive. -/
theorem lexGe_trans (a b c : Int × Int) (h1 : lexGe a b = true)
    (h2 : lexGe b c = true) : lexGe a c = true := by
  simp only [lexGe, Bool.or_eq_true, Bool.and_eq_true, decide_eq_true_eq] at *
  omega

/-- Lexicographic `≥` implies `≥` on the first components. -/
theorem lexGe_fst (a b : Int × Int) (h : lexGe a b = true) : b.1 ≤ a.1 := by
  simp only [lexGe, Bool.or_eq_true, Bool.and_eq_true, decide_eq_true_eq] at h
  omega

/-- `_validate_year` returns either `None` or a nonempty all-digit string
whose numeric value is at least 1900. -/
theorem validateYear_cases (y : Option String) :
    validateYear y = none ∨
    ∃ s, validateYear y = some s ∧ pyIsDigitStr s = true ∧ s ≠ "" ∧
      1900 ≤ digitsToNat s.data := by
  unfold validateYear
  cases y with
  | none => exact Or.inl rfl
  | some s =>
      dsimp only
      by_cases h1 : s = ""
      · rw [if_pos h1]; exact Or.inl rfl
      · rw [if_neg h1]
        by_cases h2 : ¬ (pyIsDigitStr (pyStrip s) = true) ∨ (pyStrip s).length ≠ 4
        · rw [if_pos h2]; exact Or.inl rfl
        · rw [if_neg h2]
          push_neg at h2
          obtain ⟨hd, hl4⟩ := h2
          by_cases h3 : 1900 ≤ digitsToNat (pyStrip s).data ∧
              digitsToNat (pyStrip s).data ≤ 2100
          · rw [if_pos h3]
            refine Or.inr ⟨pyStrip s, rfl, hd, ?_, h3.1⟩
            intro he
            rw [he] at hd
            exact absurd hd (by decide)
          · rw [if_neg h3]; exact Or.inl rfl

/-- C4 (amended): both normalized lists are permutations of the per-entry
normalizations and are stably sorted descending by their sort keys. For
education the key is the validated end-year (`None`/invalid as 0), so an
entry with `end_year = None` never precedes a dated one — `None` entries land
last. For experience the key is the pair (raw end-year with `None`/non-digit
as 9999, raw start-year with `None`/non-digit as 0) compared
lexicographically, so any entry preceding a `None`-end-year entry has primary
key at least 9999 — `None` end-years land at the FRONT, before all dated
entries, contrary to the original claim. -/
theorem normalize_sort_spec (edu expe : List SubEntry) :
    ((normalizeEducationEntries edu).Perm (edu.map normalizeEduEntryYears) ∧
     (normalizeEducationEntries edu).Pairwise
       (fun a b => eduSortKey b ≤ eduSortKey a) ∧
     (normalizeEducationEntries edu).Pairwise
       (fun a b => a.end_year = none → b.end_year = none)) ∧
    ((normalizeExperienceEntries expe).Perm (expe.map normalizeExpEntry) ∧
     (normalizeExperienceEntries expe).Pairwise
       (fun a b => lexGe (expSortKey a) (expSortKey b) = true) ∧
     (normalizeExperienceEntries expe).Pairwise
       (fun a b => b.end_year = none → 9999 ≤ (expSortKey a).1)) := by
  have hedu_perm : (normalizeEducationEntries edu).Perm
      (edu.map normalizeEduEntryYears) := pySortDescBy_perm _ _
  have hedu_sorted : (normalizeEducationEntries edu).Pairwise
      (fun a b => eduSortKey b ≤ eduSortKey a) := by
    have h := pySortDescBy_pairwise
      (fun a b : SubEntry => eduSortKey a ≥ eduSortKey b)
      (fun a b h => by
        simp only [decide_eq_false_iff_not, decide_eq_true_eq, ge_iff_le] at *
        exact le_of_not_le h)
      (fun a b c h1 h2 => by
        simp only [decide_eq_true_eq, ge_iff_le] at *
        exact le_trans h2 h1)
      (edu.map normalizeEduEntryYears)
    exact h.imp (fun hab => by simpa using of_decide_eq_true hab)
  have hexp_perm : (normalizeExperienceEntries expe).Perm
      (expe.map normalizeExpEntry) := pySortDescBy_perm _ _
  have hexp_sorted : (normalizeExperienceEntries expe).Pairwise
      (fun a b => lexGe (expSortKey a) (expSortKey b) = true) :=
    pySortDescBy_pairwise
      (fun a b : SubEntry => lexGe (expSortKey a) (expSortKey b))
      (fun a b h => lexGe_total _ _ h)
      (fun a b c h1 h2 => lexGe_trans _ _ _ h1 h2)
      (expe.map normalizeExpEntry)
  refine ⟨⟨hedu_perm, hedu_sorted, ?_⟩, hexp_perm, hexp_sorted, ?_⟩
  · refine hedu_sorted.imp_of_mem ?_
    intro a b ha hb hba hanone
    have hb' : b ∈ edu.map normalizeEduEntryYears := hedu_perm.mem_iff.mp hb
    obtain ⟨eb, heb, rfl⟩ := List.mem_map.mp hb'
    rcases validateYear_cases eb.end_year with hnone | ⟨s, hs, hd, hne, h1900⟩
    · exact hnone
    · exfalso
      have hkb : eduSortKey (normalizeEduEntryYears eb) =
          (digitsToNat s.data : Int) := by
        simp [eduSortKey, normalizeEduEntryYears, hs, hd, hne]
      have hka : eduSortKey a = 0 := by simp [eduSortKey, hanone]
      rw [hka, hkb] at hba
      have h19 : (1900 : Int) ≤ (digitsToNat s.data : Int) := by
        exact_mod_cast h1900
      omega
  · refine hexp_sorted.imp ?_
    intro a b hab hbnone
    have hkb : (expSortKey b).1 = 9999 := by simp [expSortKey, hbnone]
    have hfst := lexGe_fst _ _ hab
    omega

/-- C4 counterexample: experience end-years `["2020", None, "2018"]` sort to
`[None, "2020", "2018"]` — the unterminated entry lands FIRST, not last as
the claim (illustrated there on education, but asserted for both lists)
states. -/
theorem experience_sort_none_first_cex :
    (normalizeExperienceEntries
        [{ title := some "A", end_year := some "2020" },
         { title := some "B", end_year := none },
         { title := some "C", end_year := some "2018" }]).map SubEntry.end_year =
      [none, some "2020", some "2018"] ∧
    [none, some "2020", some "2018"] ≠
      [some "2020", some "2018", (none : Option String)] :=
  ⟨by decide, by decide⟩

/-- First three components of a fuzzy-scan accumulator (`best_match`,
`best_score`, `best_matched_field`) — the part of the scan state that does
not depend on the `explain` flag. -/
def scanFirst3 (x : Option CanonicalField × ℚ × Option String × List FuzzyAlt) :
    Option CanonicalField × ℚ × Option String := (x.1, x.2.1, x.2.2.1)

/-- One scan step updates `(best_match, best_score, best_matched_field)`
identically for any value of `explain` (the flag only accumulates
`alternatives`). -/
theorem fuzzyScanStep_first3 (normalized : String) (e1 e2 : Bool)
    (acc1 acc2 : Option CanonicalField × ℚ × Option String × List FuzzyAlt)
    (kv : String × CanonicalField) (h : scanFirst3 acc1 = scanFirst3 acc2) :
    scanFirst3 (fuzzyScanStep normalized e1 acc1 kv) =
      scanFirst3 (fuzzyScanStep normalized e2 acc2 kv) := by
  rcases acc1 with ⟨bm1, bs1, bf1, alts1⟩
  rcases acc2 with ⟨bm2, bs2, bf2, alts2⟩
  rcases kv with ⟨af, cf⟩
  simp only [scanFirst3, Prod.mk.injEq] at h
  obtain ⟨rfl, rfl, rfl⟩ := h
  simp only [fuzzyScanStep]
  by_cases hgt : (if (pyInStr normalized af || pyInStr af normalized) = true
      then max (seqMatchScore normalized.data af.data) (mkRat 17 20)
      else seqMatchScore normalized.data af.data) > bs1
  · rw [if_pos hgt, if_pos hgt]
    rfl
  · rw [if_neg hgt, if_neg hgt]
    rfl

/-- The whole scan agrees on `(best_match, best_score, best_matched_field)`
between `explain=True` and `explain=False`. -/
theorem fuzzyScan_first3 (normalized : String) :
    scanFirst3 (fuzzyScan normalized true) =
      scanFirst3 (fuzzyScan normalized false) := by
  suffices h : ∀ (l : List (String × CanonicalField))
      (acc1 acc2 : Option CanonicalField × ℚ × Option String × List FuzzyAlt),
      scanFirst3 acc1 = scanFirst3 acc2 →
      scanFirst3 (l.foldl (fuzzyScanStep normalized true) acc1) =
        scanFirst3 (l.foldl (fuzzyScanStep normalized false) acc2) from
    h ATS_FIELD_MAPPINGS (none, 0, none, []) (none, 0, none, []) rfl
  intro l
  induction l with
  | nil => intro acc1 acc2 h; exact h
  | cons kv rest ih =>
      intro acc1 acc2 h
      simp only [List.foldl_cons]
      exact ih _ _ (fuzzyScanStep_first3 normalized true false acc1 acc2 kv h)

/-- C5 (amended): on a no-match (no exact synonym-table hit, best scan score
strictly below the threshold) `fuzzy_match_field` returns the triple
`(None, 0.0, explanation)` — the middle component is the constant 0.0, NOT
the best score found, contrary to the original claim; the best score is
reported only inside the explanation, whose `method` is `none` and whose
`similarity_score` is the scan's best score (with `explain=False` the third
component is `None` and the best score is not reported at all). -/
theorem fuzzyMatchField_no_match_spec (name : String) (t : ℚ)
    (hex : ATS_FIELD_MAPPINGS.lookup (normalizeFieldName name false).1 = none)
    (hlt : (fuzzyScan (normalizeFieldName name false).1 false).2.1 < t) :
    fuzzyMatchField name t false = (none, 0, none) ∧
    ∃ ex : FuzzyExplain,
      fuzzyMatchField name t true = (none, 0, some ex) ∧
      ex.matching.method = some "none" ∧
      ex.matching.similarity_score =
        some ((fuzzyScan (normalizeFieldName name false).1 false).2.1) := by
  have hn : (normalizeFieldName name false).1 =
      (normalizeFieldName name true).1 := rfl
  rcases hnf : normalizeFieldName name false with ⟨nm, st⟩
  rw [hnf] at hex hlt
  dsimp only at hex hlt
  constructor
  · rcases hscan : fuzzyScan nm false with ⟨bm, bs, bf, alts⟩
    rw [hscan] at hlt
    dsimp only at hlt
    simp only [fuzzyMatchField, hnf, hex, hscan]
    rw [if_neg (not_le.mpr hlt)]
    rfl
  · rcases hnf2 : normalizeFieldName name true with ⟨nm2, st2⟩
    rw [hnf, hnf2] at hn
    dsimp only at hn
    subst hn
    have hagree := fuzzyScan_first3 nm
    rcases hscan : fuzzyScan nm false with ⟨bm, bs, bf, alts⟩
    rcases hscan2 : fuzzyScan nm true with ⟨bm2, bs2, bf2, alts2⟩
    rw [hscan, hscan2] at hagree
    simp only [scanFirst3, Prod.mk.injEq] at hagree
    obtain ⟨hbm, hbs, hbf⟩ := hagree
    rw [hscan] at hlt
    dsimp only at hlt
    have hlt2 : bs2 < t := hbs ▸ hlt
    simp only [fuzzyMatchField, hnf2, hex, hscan2]
    rw [if_neg (not_le.mpr hlt2)]
    refine ⟨_, rfl, ?_, ?_⟩
    · dsimp only
      rw [if_neg (not_le.mpr hlt2)]
    · dsimp only
      rw [hbs]

/-- C5 counterexample: for the field name `"zz q"` (no exact hit, best scan
score 1/3 against synonym `"zip code"`, below threshold 0.7) the matcher
returns middle component 0, while the best score found during the scan is
1/3 ≠ 0 — refuting the original claim that the no-match triple carries
`best_score`. -/
theorem fuzzy_no_match_score_cex :
    fuzzyMatchField "zz q" (mkRat 7 10) false = (none, 0, none) ∧
    (fuzzyScan (normalizeFieldName "zz q" false).1 false).2.1 = mkRat 1 3 ∧
    (mkRat 1 3 : ℚ) ≠ 0 :=
  ⟨by decide, by decide, by decide⟩

/-- Witness for the amended no-match theorem at the concrete input
`"zz q"` with threshold 0.7: both hypotheses hold by evaluation and the
conclusion follows by the theorem. -/
theorem fuzzyMatchField_no_match_spec_witness :
    ATS_FIELD_MAPPINGS.lookup (normalizeFieldName "zz q" false).1 = none ∧
    (fuzzyScan (normalizeFieldName "zz q" false).1 false).2.1 < mkRat 7 10 ∧
    (fuzzyMatchField "zz q" (mkRat 7 10) false = (none, 0, none) ∧
     ∃ ex : FuzzyExplain,
       fuzzyMatchField "zz q" (mkRat 7 10) true = (none, 0, some ex) ∧
       ex.matching.method = some "none" ∧
       ex.matching.similarity_score =
         some ((fuzzyScan (normalizeFieldName "zz q" false).1 false).2.1)) :=
  ⟨by decide, by decide,
    fuzzyMatchField_no_match_spec "zz q" (mkRat 7 10) (by decide) (by decide)⟩
